import Mathlib

/-!
# Demand paging of the enclave runtime (`paging.c`)

A shallow embedding of the backing-store allocator, the victim traversal, the
victim selector, the page swap, the eviction routine and the page-fault handler
of `paging.c`, followed by the properties established about them.

Machine words are natural numbers; every C operation that can overflow a
`uintptr_t` is reduced modulo `WORD = 2 ^ 64`. Memory is byte addressed.
-/

namespace Paging

/-! ## Machine words and constants -/

/-- Number of values of a `uintptr_t` on RV64. -/
def WORD : Nat := 18446744073709551616

/-- Modelled from the spec: `RISCV_PAGE_BITS` of the header `vm.h`, which is not among the
sources; pages are the 4 KiB pages of the Sv39 scheme the spec names. -/
def RISCV_PAGE_BITS : Nat := 12

/-- Modelled from the spec: `RISCV_PAGE_SIZE` of the missing header, `1 << RISCV_PAGE_BITS`. -/
def RISCV_PAGE_SIZE : Nat := 4096

/-- Modelled from the spec: `RISCV_PT_INDEX_BITS` of the missing header; a table of one page
holds `RISCV_PAGE_SIZE / sizeof(pte) = 512` entries, indexed by 9 bits. -/
def RISCV_PT_INDEX_BITS : Nat := 9

/-- Modelled from the spec: `RISCV_PT_LEVELS` of the missing header; the spec fixes the depth
of the page table to 3. -/
def RISCV_PT_LEVELS : Nat := 3

/-- Modelled from the spec: `IS_ALIGNED(n, b)` of the missing header: the low `b` bits of `n`
are clear. -/
def IS_ALIGNED (n b : Nat) : Bool := n % 2 ^ b == 0

/-! ## State -/

/-- Byte-addressed memory. -/
abbrev Mem := Nat → Nat

/-- The globals the paging code reads and writes, the memory, and two ghost counters:
`draws` is the number of calls of `sbi_random` made so far and `walks` the number of
calls of `__traverse_page_table_and_pick` made so far. -/
structure State where
  mem : Mem
  paging_backing_storage_addr : Nat
  paging_backing_storage_size : Nat
  paging_next_backing_page_offset : Nat
  freemem_va_start : Nat
  freemem_size : Nat
  draws : Nat
  walks : Nat

/-- How a call ends: it returns a value, an `assert` fails, or control is handed to
`rt_page_fault`. Each outcome carries the state reached at that point. -/
inductive Outcome (α : Type) where
  | ok (ret : α) (s : State)
  | abort (s : State)
  | fault (s : State)

/-! ## Backing-store allocator -/

/-- Embedding of `__alloc_backing_page`. -/
def __alloc_backing_page (s : State) : Outcome Nat :=
  if s.paging_next_backing_page_offset ≥ s.paging_backing_storage_size then
    .ok 0 s
  else
    let next_page := (s.paging_backing_storage_addr + s.paging_next_backing_page_offset) % WORD
    if IS_ALIGNED next_page RISCV_PAGE_BITS then
      .ok next_page
        { s with paging_next_backing_page_offset :=
                  (s.paging_next_backing_page_offset + RISCV_PAGE_SIZE) % WORD }
    else
      .abort s

/-- State before call number `k` (counting from 0) of a sequence of calls of
`__alloc_backing_page` started in `s`; `none` when an earlier call aborted. -/
def allocState (s : State) : Nat → Option State
  | 0 => some s
  | k + 1 =>
    match allocState s k with
    | none => none
    | some t =>
      match __alloc_backing_page t with
      | .ok _ t1 => some t1
      | _ => none

/-- Value returned by call number `k` of the sequence. -/
def allocRet (s : State) (k : Nat) : Option Nat :=
  match allocState s k with
  | none => none
  | some t =>
    match __alloc_backing_page t with
    | .ok r _ => some r
    | _ => none

/-- Offset before call number `k` of the sequence. -/
def allocOff (s : State) (k : Nat) : Option Nat :=
  (allocState s k).map State.paging_next_backing_page_offset


/-- The allocator states considered: base address page-aligned and nonzero, offset
page-aligned, and `base + size` below `2 ^ 64`. -/
def AllocInv (s : State) : Prop :=
  s.paging_backing_storage_addr % RISCV_PAGE_SIZE = 0 ∧ s.paging_backing_storage_addr ≠ 0 ∧
  s.paging_next_backing_page_offset % RISCV_PAGE_SIZE = 0 ∧
  s.paging_backing_storage_addr + s.paging_backing_storage_size < WORD

/-- Number of calls of `__alloc_backing_page` that can still succeed in `s`. -/
def allocCap (s : State) : Nat :=
  (s.paging_backing_storage_size - s.paging_next_backing_page_offset + 4095) / 4096

/-- The state `s` with its allocation offset advanced by `n` pages. -/
def advance (s : State) (n : Nat) : State :=
  { s with paging_next_backing_page_offset := s.paging_next_backing_page_offset + 4096 * n }

/-- An allocator with base address 0 and two pages of backing store. -/
def allocZeroBase : State :=
  { mem := fun _ => 0, paging_backing_storage_addr := 0, paging_backing_storage_size := 8192,
    paging_next_backing_page_offset := 0, freemem_va_start := 0, freemem_size := 0,
    draws := 0, walks := 0 }

/-- An allocator with base address `0x10000` and two pages of backing store. -/
def allocTwoPages : State :=
  { mem := fun _ => 0, paging_backing_storage_addr := 65536, paging_backing_storage_size := 8192,
    paging_next_backing_page_offset := 0, freemem_va_start := 0, freemem_size := 0,
    draws := 0, walks := 0 }

/-- An allocator whose backing store is one page and a half long, with the first page
already handed out. -/
def allocPartialPage : State :=
  { mem := fun _ => 0, paging_backing_storage_addr := 65536, paging_backing_storage_size := 6144,
    paging_next_backing_page_offset := 4096, freemem_va_start := 0, freemem_size := 0,
    draws := 0, walks := 0 }

/-! ## Page-table entries -/

/-- Modelled from the spec: the valid bit `PTE_V` of the missing header `vm.h` (Sv39 layout). -/
def PTE_V : Nat := 1

/-- Modelled from the spec: the read permission bit `PTE_R` of the missing header. -/
def PTE_R : Nat := 2

/-- Modelled from the spec: the write permission bit `PTE_W` of the missing header. -/
def PTE_W : Nat := 4

/-- Modelled from the spec: the execute permission bit `PTE_X` of the missing header. -/
def PTE_X : Nat := 8

/-- Modelled from the spec: the user-accessible bit `PTE_U` of the missing header. -/
def PTE_U : Nat := 16

/-- Modelled from the spec: `PTE_FLAG_MASK` of the missing header, the ten flag bits below the
physical page number of an Sv39 entry. -/
def PTE_FLAG_MASK : Nat := 1023

/-- Modelled from the spec: `PTE_PPN_SHIFT` of the missing header, the position of the
physical page number in an Sv39 entry. -/
def PTE_PPN_SHIFT : Nat := 10

/-- Modelled from the spec: `pte_ppn` of the missing header, the entry without its flag bits. -/
def pte_ppn (e : Nat) : Nat := e >>> PTE_PPN_SHIFT

/-- Modelled from the spec: `ppn` of the missing header, the page number of a physical
address. -/
def ppn (pa : Nat) : Nat := pa >>> RISCV_PAGE_BITS

/-- Modelled from the spec: `vpn` of the missing header, the page number of a virtual
address. -/
def vpn (va : Nat) : Nat := va >>> RISCV_PAGE_BITS

/-- Modelled from the spec: `pte_create` of the missing header: a valid entry with the given
page number and the flag bits of `type`. -/
def pte_create (ppn type : Nat) : Nat :=
  ((ppn <<< PTE_PPN_SHIFT) % WORD) ||| PTE_V ||| (type &&& PTE_FLAG_MASK)

/-- Modelled from the spec: `pte_create_invalid` of the missing header: an entry with the
given page number and the flag bits of `type` except the valid bit. -/
def pte_create_invalid (ppn type : Nat) : Nat :=
  ((ppn <<< PTE_PPN_SHIFT) % WORD) ||| (type &&& PTE_FLAG_MASK &&& (WORD - 1 - PTE_V))

/-! ## Memory accesses -/

/-- Load of a 64-bit little-endian word. -/
def read64 (m : Mem) (a : Nat) : Nat :=
  m a % 256 + 256 * (m (a + 1) % 256) + 65536 * (m (a + 2) % 256)
    + 16777216 * (m (a + 3) % 256) + 4294967296 * (m (a + 4) % 256)
    + 1099511627776 * (m (a + 5) % 256) + 281474976710656 * (m (a + 6) % 256)
    + 72057594037927936 * (m (a + 7) % 256)

/-- Store of a 64-bit little-endian word. -/
def write64 (m : Mem) (a v : Nat) : Mem :=
  fun x => if a ≤ x ∧ x < a + 8 then (v / 256 ^ (x - a)) % 256 else m x

/-- Copy of one page, `memcpy(dst, src, RISCV_PAGE_SIZE)`, the source being given by its
bytes: byte `k` of the page at `dst` becomes `src k`. -/
def memcpy_page (m : Mem) (dst : Nat) (src : Nat → Nat) : Mem :=
  fun x => if dst ≤ x ∧ x < dst + RISCV_PAGE_SIZE then src (x - dst) else m x

/-- The bytes of the page at `p`. -/
def page_of (m : Mem) (p : Nat) : Nat → Nat := fun k => m (p + k)

/-! ## Environment -/

/-- What the paging code uses and the sources do not contain: the constant
`EYRIE_LOAD_START`, the root of the page table, the address translations `__va`,
`__paging_va` and `__paging_pa`, the point lookup `pte_of_va` (it reads the page table in
memory and returns the address of an entry, 0 when there is none) and the stream of values
returned by `sbi_random`. All are parameters of the embedding. -/
structure Env where
  EYRIE_LOAD_START : Nat
  root_page_table : Nat
  __va : Nat → Nat
  __paging_va : Nat → Nat
  __paging_pa : Nat → Nat
  pte_of_va : Mem → Nat → Nat
  sbi_random : Nat → Nat

/-! ## Victim traversal -/

/-- The leaf test of the traversal: `level == 1 || (entry & PTE_R) || (entry & PTE_W) ||
(entry & PTE_X)`. -/
def is_leaf (level entry : Nat) : Bool :=
  level == 1 || entry &&& PTE_R != 0 || entry &&& PTE_W != 0 || entry &&& PTE_X != 0

/-- The test `(entry & PTE_U) && (entry & PTE_V)` of the traversal. -/
def is_user_valid (entry : Nat) : Bool :=
  entry &&& PTE_U != 0 && entry &&& PTE_V != 0

/-- The address `virt_addr` the traversal computes for entry `i` of a table reached with
`vaddr`. -/
def virt_addr_of (vaddr i : Nat) : Nat :=
  ((((vaddr <<< RISCV_PT_INDEX_BITS) % WORD) ||| (i &&& 511)) <<< RISCV_PAGE_BITS) % WORD

/-- The `for` loop of `__traverse_page_table_and_pick_internal` over the entries of the table
at `tb`, from entry `i` on, `fuel` entries being left; `child` is the recursive call for the
next level. The loop variables are `i`, `vaddr` and `next_count`. -/
def traverse_loop (E : Env) (m : Mem) (child : Nat → Nat → Nat → Nat) (level tb : Nat) :
    Nat → Nat → Nat → Nat → Nat
  | 0, _, _, _ => 0
  | fuel + 1, i, vaddr, next_count =>
    let entry := read64 m (tb + 8 * i)
    if entry = 0 then
      traverse_loop E m child level tb fuel (i + 1) vaddr next_count
    else
      let phys_addr := (pte_ppn entry <<< RISCV_PAGE_BITS) % WORD
      let virt_addr := virt_addr_of vaddr i
      if is_leaf level entry then
        let next_count1 :=
          if is_user_valid entry then (next_count + (WORD - 1)) % WORD else next_count
        if next_count1 = 0 then virt_addr
        else traverse_loop E m child level tb fuel (i + 1) vaddr next_count1
      else
        let vaddr1 := if level = 3 ∧ i &&& 256 ≠ 0 then 18446744073709551615 else vaddr
        let ret := child (E.__va phys_addr) (vpn virt_addr) next_count
        if ret ≠ 0 then ret
        else traverse_loop E m child level tb fuel (i + 1) vaddr1 next_count

/-- Embedding of `__traverse_page_table_and_pick_internal`. The C function recurses with
`level - 1` only from an entry that is not a leaf, and at level 1 every nonzero entry is a
leaf, so level 0 is never entered from level 3. -/
def __traverse_page_table_and_pick_internal (E : Env) (m : Mem) :
    Nat → Nat → Nat → Nat → Nat
  | 0, _, _, _ => 0
  | level + 1, tb, vaddr, count =>
    traverse_loop E m (__traverse_page_table_and_pick_internal E m level) (level + 1) tb
      512 0 vaddr count

/-- Embedding of `__traverse_page_table_and_pick`. -/
def __traverse_page_table_and_pick (E : Env) (m : Mem) (count : Nat) : Nat :=
  __traverse_page_table_and_pick_internal E m RISCV_PT_LEVELS E.root_page_table 0 count

/-! ## Victim selector -/

/-- The ordinal `count = (rnd % frame_count) + 1` of `__pick_page`. -/
def pick_count (rnd frame_count : Nat) : Nat :=
  ((rnd % frame_count) + 1) % WORD

/-- The value `frame_count = freemem_size >> RISCV_PAGE_BITS` of `__pick_page`. -/
def frame_count (s : State) : Nat :=
  s.freemem_size >>> RISCV_PAGE_BITS

/-- The state after `n` attempts of `__pick_page`: `n` more draws and `n` more traversals. -/
def attempts (s : State) (n : Nat) : State :=
  { s with draws := s.draws + n, walks := s.walks + n }

/-- The `while` loop of `__pick_page`, `fuel = max_retry - try` attempts being left. The
value returned by call number `n` of `sbi_random` is `E.sbi_random n` as a `uintptr_t`. -/
def pick_loop (E : Env) : Nat → State → Outcome Nat
  | 0, s => .ok 0 s
  | fuel + 1, s =>
    if frame_count s = 0 then .abort s
    else
      let rnd := E.sbi_random s.draws % WORD
      let s1 := { s with draws := s.draws + 1 }
      if rnd = 0 then .abort s1
      else
        let count := pick_count rnd (frame_count s)
        let candidate_va := __traverse_page_table_and_pick E s1.mem count
        let s2 := { s1 with walks := s1.walks + 1 }
        if candidate_va ≠ 0 then .ok candidate_va s2
        else pick_loop E fuel s2

/-- Embedding of `__pick_page`. -/
def __pick_page (E : Env) (s : State) : Outcome Nat :=
  pick_loop E 3 s

/-! ## Page swap -/

/-- Embedding of `__swap_epm_page`. -/
def __swap_epm_page (E : Env) (s : State) (back_page epm_page swap_page : Nat)
    (encrypt : Bool) : Outcome Unit :=
  if ¬ epm_page ≥ E.EYRIE_LOAD_START then .abort s
  else if ¬ epm_page < (s.freemem_va_start + s.freemem_size) % WORD then .abort s
  else if ¬ back_page ≥ s.paging_backing_storage_addr then .abort s
  else if ¬ back_page <
      (s.paging_backing_storage_addr + s.paging_backing_storage_size) % WORD then .abort s
  else if encrypt then .abort s
  else if swap_page ≠ 0 then
    if swap_page = back_page then
      let buffer := page_of s.mem swap_page
      let m1 := memcpy_page s.mem back_page (page_of s.mem epm_page)
      let m2 := memcpy_page m1 epm_page buffer
      .ok () { s with mem := m2 }
    else .abort s
  else
    .ok () { s with mem := memcpy_page s.mem back_page (page_of s.mem epm_page) }

/-! ## Eviction -/

/-- Embedding of `paging_evict_and_free_one`. -/
def paging_evict_and_free_one (E : Env) (s : State) (swap_va : Nat) : Outcome Nat :=
  match __pick_page E s with
  | .abort s1 => .abort s1
  | .fault s1 => .fault s1
  | .ok target_va s1 =>
    if target_va = 0 then .ok 0 s1
    else
      match (if swap_va ≠ 0 then Outcome.ok swap_va s1 else __alloc_backing_page s1) with
      | .abort s2 => .abort s2
      | .fault s2 => .fault s2
      | .ok dest_va s2 =>
        if ¬ dest_va ≥ s2.paging_backing_storage_addr then .abort s2
        else if ¬ dest_va <
            (s2.paging_backing_storage_addr + s2.paging_backing_storage_size) % WORD then
          .abort s2
        else
          let target_pte := E.pte_of_va s2.mem target_va
          if target_pte = 0 then .abort s2
          else
            let src_pa := (pte_ppn (read64 s2.mem target_pte) <<< RISCV_PAGE_BITS) % WORD
            match __swap_epm_page E s2 dest_va (E.__va src_pa) swap_va false with
            | .abort s3 => .abort s3
            | .fault s3 => .fault s3
            | .ok _ s3 =>
              let new_pte := pte_create_invalid (ppn (E.__paging_pa dest_va))
                (read64 s3.mem target_pte &&& PTE_FLAG_MASK)
              .ok src_pa { s3 with mem := write64 s3.mem target_pte new_pte }

/-! ## Page-fault handler -/

/-- Embedding of `paging_handle_page_fault`; `addr` is `ctx->sbadaddr`. The outcome `fault`
is the call of `rt_page_fault` at the label `exit`. -/
def paging_handle_page_fault (E : Env) (s : State) (addr : Nat) : Outcome Unit :=
  if addr ≥ E.EYRIE_LOAD_START then .fault s
  else
    let entry := E.pte_of_va s.mem addr
    if entry = 0 then .fault s
    else if read64 s.mem entry &&& PTE_V ≠ 0 then .fault s
    else
      let back_ptr := E.__paging_va ((pte_ppn (read64 s.mem entry) <<< RISCV_PAGE_BITS) % WORD)
      if back_ptr = 0 then .fault s
      else if ¬ back_ptr ≥ s.paging_backing_storage_addr then .abort s
      else if ¬ back_ptr <
          (s.paging_backing_storage_addr + s.paging_backing_storage_size) % WORD then .abort s
      else
        match paging_evict_and_free_one E s back_ptr with
        | .abort s1 => .abort s1
        | .fault s1 => .fault s1
        | .ok frame s1 =>
          if frame = 0 then .fault s1
          else
            let new_pte := pte_create (ppn frame) (read64 s1.mem entry &&& PTE_FLAG_MASK)
            .ok () { s1 with mem := write64 s1.mem entry new_pte }

/-! ## Point lookup and concrete configurations -/

/-- Modelled from the spec: the index extraction of the walker, 9 bits per level, the root
being level 3. The header that defines it is not among the sources. -/
def pt_index (addr level : Nat) : Nat :=
  (addr >>> (RISCV_PT_INDEX_BITS * (level - 1) + RISCV_PAGE_BITS)) &&& 511

/-- Modelled from the spec: the point lookup `pte_of_va` of the walker, which is not among the
sources: it walks from the root through each level by index extraction, most significant level
first, follows only valid intermediate pointers, and returns the address of the entry of the
deepest level, 0 when an intermediate entry is not valid. -/
def walk_pte_of_va (va : Nat → Nat) (root : Nat) (m : Mem) (addr : Nat) : Nat :=
  let e3 := read64 m (root + 8 * pt_index addr 3)
  if e3 &&& PTE_V = 0 then 0
  else
    let t2 := va ((pte_ppn e3 <<< RISCV_PAGE_BITS) % WORD)
    let e2 := read64 m (t2 + 8 * pt_index addr 2)
    if e2 &&& PTE_V = 0 then 0
    else
      let t1 := va ((pte_ppn e2 <<< RISCV_PAGE_BITS) % WORD)
      t1 + 8 * pt_index addr 1

/-- Memory holding the given 64-bit words and zero elsewhere. -/
def mem_of_words : List (Nat × Nat) → Mem
  | [] => fun _ => 0
  | (a, v) :: ws => write64 (mem_of_words ws) a v

/-- A concrete environment: the runtime is loaded at physical address `0x80000000` and
mapped at `0xffffffff00000000`, the backing store starts at physical address `0x90000000`
and is mapped at `0xffffffff40000000`, the root table is the page at physical address
`0x80001000`, and call number `n` of `sbi_random` returns `n % 1000 + 7`. -/
def demoEnv : Env :=
  { EYRIE_LOAD_START := 0xffffffff00000000
    root_page_table := 0xffffffff00001000
    __va := fun pa => (pa + (WORD - 0x80000000) + 0xffffffff00000000) % WORD
    __paging_va := fun pa => (pa + (WORD - 0x90000000) + 0xffffffff40000000) % WORD
    __paging_pa := fun va => (va + (WORD - 0xffffffff40000000) + 0x90000000) % WORD
    pte_of_va := walk_pte_of_va
      (fun pa => (pa + (WORD - 0x80000000) + 0xffffffff00000000) % WORD) 0xffffffff00001000
    sbi_random := fun n => n % 1000 + 7 }

/-- A page table with one resident user page at virtual address `0x1000`. -/
def oneUserPage : Mem :=
  mem_of_words
    [ (0xffffffff00001000, 0x20000801), -- root[0] -> table at 0x80002000
      (0xffffffff00002000, 0x20000c01), -- level 2 [0] -> table at 0x80003000
      (0xffffffff00003008, 0x200010df)  -- level 1 [1] -> frame 0x80004000, D A U X W R V
    ]

/-- A state over the memory `m`: two pages of backing store mapped at `0xffffffff40000000`,
none handed out, and one page of free memory, the frame at physical address `0x80004000`. -/
def demoState (m : Mem) : State :=
  { mem := m
    paging_backing_storage_addr := 0xffffffff40000000
    paging_backing_storage_size := 0x2000
    paging_next_backing_page_offset := 0
    freemem_va_start := 0xffffffff00004000
    freemem_size := 0x1000
    draws := 0
    walks := 0 }

/-- Memory that is zero everywhere: an empty page table. -/
def zeroMem : Mem := fun _ => 0

/-! ## Enumeration of the leaves -/

/-- A leaf met by the traversal: its reconstructed address, its entry, and its rank, the
number of valid user leaves counted on the way to it, itself included: those at or before it
in its own table and those before the point of descent in each table above. -/
structure Leaf where
  va : Nat
  entry : Nat
  rank : Nat
  deriving DecidableEq

/-- The leaves met by the loop of the traversal from entry `i` on, in the order of the loop,
`k` valid user leaves having been counted so far; `child` lists the leaves of a table of the
next level. Leaves counted inside a sub-table are not added to `k`. -/
def leaves_loop (E : Env) (m : Mem) (child : Nat → Nat → Nat → List Leaf) (level tb : Nat) :
    Nat → Nat → Nat → Nat → List Leaf
  | 0, _, _, _ => []
  | fuel + 1, i, vaddr, k =>
    let entry := read64 m (tb + 8 * i)
    if entry = 0 then
      leaves_loop E m child level tb fuel (i + 1) vaddr k
    else
      let phys_addr := (pte_ppn entry <<< RISCV_PAGE_BITS) % WORD
      let virt_addr := virt_addr_of vaddr i
      if is_leaf level entry then
        let k1 := if is_user_valid entry then k + 1 else k
        { va := virt_addr, entry := entry, rank := k1 } ::
          leaves_loop E m child level tb fuel (i + 1) vaddr k1
      else
        let vaddr1 := if level = 3 ∧ i &&& 256 ≠ 0 then 18446744073709551615 else vaddr
        child (E.__va phys_addr) (vpn virt_addr) k ++
          leaves_loop E m child level tb fuel (i + 1) vaddr1 k

/-- The leaves of the tree below the table at `tb`, depth first, ascending index. -/
def leaves (E : Env) (m : Mem) : Nat → Nat → Nat → Nat → List Leaf
  | 0, _, _, _ => []
  | level + 1, tb, vaddr, k =>
    leaves_loop E m (leaves E m level) (level + 1) tb 512 0 vaddr k

/-- The leaves of the whole page table. -/
def all_leaves (E : Env) (m : Mem) : List Leaf :=
  leaves E m RISCV_PT_LEVELS E.root_page_table 0 0

/-- The leaf at which a traversal started with count `n` stops: valid, user-accessible, of
rank `n`, with a nonzero reconstructed address. -/
def is_hit (n : Nat) (l : Leaf) : Bool :=
  is_user_valid l.entry && l.rank == n && l.va != 0

/-- The address of the first leaf of the list at which a traversal with count `n` stops,
0 when there is none. -/
def first_hit (ls : List Leaf) (n : Nat) : Nat :=
  match ls.find? (is_hit n) with
  | some l => l.va
  | none => 0

/-- A page table with one resident user page in the upper half of the address space: root
index `0x100`, level-2 index 0, level-1 index 1. -/
def upperHalfPage : Mem :=
  mem_of_words
    [ (0xffffffff00001800, 0x20000801), -- root[0x100] -> table at 0x80002000
      (0xffffffff00002000, 0x20000c01), -- level 2 [0] -> table at 0x80003000
      (0xffffffff00003008, 0x200010df)  -- level 1 [1] -> frame 0x80004000
    ]

/-! ## Names for the objects of a page fault -/

/-- The physical address stored in the entry of the faulting address `addr`: the backing
pointer the handler computes as `pte_ppn(*entry) << RISCV_PAGE_BITS`. -/
def backing_pa (E : Env) (s : State) (addr : Nat) : Nat :=
  (pte_ppn (read64 s.mem (E.pte_of_va s.mem addr)) <<< RISCV_PAGE_BITS) % WORD

/-- The physical address of the frame mapped by the entry of the victim address `target_va`:
the value `src_pa` of `paging_evict_and_free_one`. -/
def victim_frame (E : Env) (s : State) (target_va : Nat) : Nat :=
  (pte_ppn (read64 s.mem (E.pte_of_va s.mem target_va)) <<< RISCV_PAGE_BITS) % WORD

/-- The 64-bit word at `a` lies outside the page at `p`. -/
def word_outside_page (a p : Nat) : Prop :=
  a + 8 ≤ p ∨ p + RISCV_PAGE_SIZE ≤ a

/-- The byte at `x` lies outside the 64-bit word at `a`. -/
def byte_outside_word (x a : Nat) : Prop :=
  ¬ (a ≤ x ∧ x < a + 8)

/-- The byte at `x` lies outside the page at `p`. -/
def byte_outside_page (x p : Nat) : Prop :=
  ¬ (p ≤ x ∧ x < p + RISCV_PAGE_SIZE)

/-! ## Reading an outcome -/

/-- The call returned normally. -/
def Outcome.returned {α : Type} : Outcome α → Bool
  | .ok _ _ => true
  | _ => false

/-- The state in which the call ended. -/
def Outcome.final {α : Type} : Outcome α → State
  | .ok _ s => s
  | .abort s => s
  | .fault s => s

/-- The value returned by the call, 0 when it did not return. -/
def Outcome.value : Outcome Nat → Nat
  | .ok v _ => v
  | _ => 0

/-! ## Concrete page faults -/

/-- A page table with one resident user page at `0x1000`, in the frame at `0x80004000`, and
one swapped-out user page at `0x2000`, whose entry points to the backing page at
`0x90000000`; the resident page starts with the word `0x1111`, the backing page with
`0x2222`. -/
def faultMem : Mem :=
  mem_of_words
    [ (0xffffffff00001000, 0x20000801), -- root[0] -> table at 0x80002000
      (0xffffffff00002000, 0x20000c01), -- level 2 [0] -> table at 0x80003000
      (0xffffffff00003008, 0x200010df), -- level 1 [1] -> frame 0x80004000, D A U X W R V
      (0xffffffff00003010, 0x240000de), -- level 1 [2] -> backing 0x90000000, D A U X W R
      (0xffffffff00004000, 0x1111),
      (0xffffffff40000000, 0x2222)
    ]

/-- The same page table, except that the resident user page at `0x1000` is mapped to the
frame at `0x80003000`, the page that holds the level-1 table itself. -/
def aliasMem : Mem :=
  mem_of_words
    [ (0xffffffff00001000, 0x20000801), -- root[0] -> table at 0x80002000
      (0xffffffff00002000, 0x20000c01), -- level 2 [0] -> table at 0x80003000
      (0xffffffff00003008, 0x20000cdf), -- level 1 [1] -> frame 0x80003000, D A U X W R V
      (0xffffffff00003010, 0x240000de), -- level 1 [2] -> backing 0x90000000, D A U X W R
      (0xffffffff40000000, 0x2222)
    ]

/-- The state over `aliasMem` whose free memory is the page of the level-1 table. -/
def aliasState : State :=
  { demoState aliasMem with freemem_va_start := 0xffffffff00003000 }

/-- The call ended in a failed assertion. -/
def Outcome.aborted {α : Type} : Outcome α → Bool
  | .abort _ => true
  | _ => false

/-- The call ended in `rt_page_fault`. -/
def Outcome.faulted {α : Type} : Outcome α → Bool
  | .fault _ => true
  | _ => false

/-! ## Further concrete configurations -/

/-- The concrete fault state with its backing store fully allocated: the next offset equals
the size. -/
def fullStoreState : State :=
  { demoState faultMem with paging_next_backing_page_offset := 0x2000 }

/-- A page table whose entry for `0x2000` is invalid and stores the page number 0, with flag
bits `0xde`, next to one resident user page at `0x1000`. -/
def zeroPointerMem : Mem :=
  mem_of_words
    [ (0xffffffff00001000, 0x20000801), -- root[0] -> table at 0x80002000
      (0xffffffff00002000, 0x20000c01), -- level 2 [0] -> table at 0x80003000
      (0xffffffff00003008, 0x200010df), -- level 1 [1] -> frame 0x80004000, D A U X W R V
      (0xffffffff00003010, 0xde)        -- level 1 [2]: invalid, page number 0, D A U X W R
    ]

/-- A page table whose root entry 0 is nonzero, has the valid bit clear and none of R, W, X
set, and stores the page number of a level-2 table that leads to one valid user leaf. -/
def invalidIntermediate : Mem :=
  mem_of_words
    [ (0xffffffff00001000, 0x20000800), -- root[0]: page number 0x80002, no flag at all
      (0xffffffff00002000, 0x20000c01), -- level 2 [0] -> table at 0x80003000
      (0xffffffff00003008, 0x200010df)  -- level 1 [1] -> frame 0x80004000, D A U X W R V
    ]

/-- A page table with one valid user superpage: the level-2 entry of index 1 under root
index 0 is a leaf, a 2 MiB page at virtual address `0x200000`. -/
def superPage : Mem :=
  mem_of_words
    [ (0xffffffff00001000, 0x20000801), -- root[0] -> table at 0x80002000
      (0xffffffff00002008, 0x200800df)  -- level 2 [1]: leaf, frame 0x80200000, D A U X W R V
    ]

/-- An environment in which the runtime is loaded at physical address 0, so that
`__va(pa) = pa + 0xffffffff00000000`; the root table is the page at physical address
`0x1000`. -/
def zeroLoadEnv : Env :=
  { EYRIE_LOAD_START := 0xffffffff00000000
    root_page_table := 0xffffffff00001000
    __va := fun pa => (pa + 0xffffffff00000000) % WORD
    __paging_va := fun pa => (pa + (WORD - 0x90000000) + 0xffffffff40000000) % WORD
    __paging_pa := fun va => (va + (WORD - 0xffffffff40000000) + 0x90000000) % WORD
    pte_of_va := walk_pte_of_va (fun pa => (pa + 0xffffffff00000000) % WORD) 0xffffffff00001000
    sbi_random := fun n => n % 1000 + 7 }

/-- A page table, for `zeroLoadEnv`, whose only resident user page, at `0x1000`, is mapped
to the frame of page number 0. -/
def frameZeroMem : Mem :=
  mem_of_words
    [ (0xffffffff00001000, 0x00000801), -- root[0] -> table at 0x2000
      (0xffffffff00002000, 0x00000c01), -- level 2 [0] -> table at 0x3000
      (0xffffffff00003008, 0x000000df), -- level 1 [1] -> frame 0, D A U X W R V
      (0xffffffff00000000, 0x1111)
    ]

/-- The state over `frameZeroMem` whose free memory is the frame of page number 0. -/
def frameZeroState : State :=
  { demoState frameZeroMem with freemem_va_start := 0xffffffff00000000 }

/-! ## Memory after an eviction -/

/-- Memory after `__swap_epm_page(dest, epm, swap_va, false)` has returned: the backing page
at `dest` holds the former bytes of the page at `epm`, and, when `swap_va` is nonzero, the
page at `epm` holds the former bytes of the page at `swap_va`. -/
def swap_mem (m : Mem) (dest epm swap_va : Nat) : Mem :=
  if swap_va ≠ 0 then
    memcpy_page (memcpy_page m dest (page_of m epm)) epm (page_of m swap_va)
  else
    memcpy_page m dest (page_of m epm)

/-- Memory after the eviction of the page whose entry is at `target_pte`: the pages are
swapped, then the entry is rewritten as an invalid entry that points to `dest`. -/
def evict_mem (E : Env) (m : Mem) (dest epm swap_va target_pte : Nat) : Mem :=
  write64 (swap_mem m dest epm swap_va) target_pte
    (pte_create_invalid (ppn (E.__paging_pa dest))
      (read64 (swap_mem m dest epm swap_va) target_pte &&& PTE_FLAG_MASK))

/-- Memory after a page fault has been handled: the eviction has swapped the backing page at
`back` with the victim frame at `epm` and invalidated the entry at `target_pte`; then the
entry at `entry` is rewritten as a valid entry for the frame at physical address `frame`. -/
def fault_mem (E : Env) (m : Mem) (back epm target_pte entry frame : Nat) : Mem :=
  write64 (evict_mem E m back epm back target_pte) entry
    (pte_create (ppn frame)
      (read64 (evict_mem E m back epm back target_pte) entry &&& PTE_FLAG_MASK))

/-- The state `s1` has the bounds of the backing store and of the free memory of `s`. -/
def same_globals (s s1 : State) : Prop :=
  s1.paging_backing_storage_addr = s.paging_backing_storage_addr ∧
  s1.paging_backing_storage_size = s.paging_backing_storage_size ∧
  s1.freemem_va_start = s.freemem_va_start ∧ s1.freemem_size = s.freemem_size

/-! ## Initialisation -/

/-- Modelled from the spec: the accessed bit `PTE_A` of the missing header `vm.h` (Sv39
layout). -/
def PTE_A : Nat := 64

/-- Modelled from the spec: the dirty bit `PTE_D` of the missing header (Sv39 layout). -/
def PTE_D : Nat := 128

/-- One call of `remap_physical_pages(vpn, ppn, count, flags)`. -/
structure Mapping where
  vpn : Nat
  ppn : Nat
  count : Nat
  flags : Nat
  deriving DecidableEq

/-- What `init_paging` uses and the sources do not contain: the constant
`EYRIE_PAGING_START`, the three exception numbers, the address of the fault handler as stored
in the trap table, the values returned by `sbi_query_multimem` and
`sbi_query_multimem_addr`, and the translation `__paging_va`, which depends on
`paging_pa_start`. -/
structure InitEnv where
  EYRIE_PAGING_START : Nat
  RISCV_EXCP_INST_PAGE_FAULT : Nat
  RISCV_EXCP_LOAD_PAGE_FAULT : Nat
  RISCV_EXCP_STORE_PAGE_FAULT : Nat
  handler : Nat
  sbi_query_multimem : Nat
  sbi_query_multimem_addr : Nat
  __paging_va : Nat → Nat → Nat

/-- The globals `init_paging` writes, the trap table `rt_trap_table`, and the address-space
mappings, kept as the list of the calls of `remap_physical_pages` made so far (that function
is not among the sources; the spec says it establishes the virtual mapping). -/
structure InitState where
  paging_pa_start : Nat
  paging_backing_storage_addr : Nat
  paging_backing_storage_size : Nat
  paging_next_backing_page_offset : Nat
  trap_table : Nat → Nat
  mappings : List Mapping

/-- Assignment `table[i] = v`. -/
def set_slot (table : Nat → Nat) (i v : Nat) : Nat → Nat :=
  fun j => if j = i then v else table j

/-- Embedding of `init_paging`. -/
def init_paging (I : InitEnv) (t : InitState) : InitState :=
  let size := I.sbi_query_multimem % WORD
  if size = 0 then t
  else
    let addr := I.sbi_query_multimem_addr % WORD
    if addr = 0 then t
    else
      let t1 : InitState :=
        { t with
          paging_pa_start := addr
          paging_backing_storage_size := size
          paging_backing_storage_addr := I.__paging_va addr addr
          paging_next_backing_page_offset := 0 }
      let t2 : InitState :=
        { t1 with
          mappings := t1.mappings ++
            [{ vpn := vpn I.EYRIE_PAGING_START, ppn := ppn addr,
               count := size >>> RISCV_PAGE_BITS,
               flags := PTE_R ||| PTE_W ||| PTE_D ||| PTE_A }] }
      let tt1 := set_slot t2.trap_table I.RISCV_EXCP_INST_PAGE_FAULT I.handler
      let tt2 := set_slot tt1 I.RISCV_EXCP_LOAD_PAGE_FAULT I.handler
      let tt3 := set_slot tt2 I.RISCV_EXCP_STORE_PAGE_FAULT I.handler
      { t2 with trap_table := tt3 }

/-! ## Invariants of the page table -/

/-- The physical address stored in the entry `e`: `pte_ppn(e) << RISCV_PAGE_BITS`, as the
handler and the eviction compute it. -/
def stored_pa (e : Nat) : Nat :=
  (pte_ppn e <<< RISCV_PAGE_BITS) % WORD

/-- The physical address `pa` lies in the backing store: its translation by `__paging_va` is
in `[paging_backing_storage_addr, paging_backing_storage_addr +
paging_backing_storage_size)`, the test the handler asserts on a stored pointer. -/
def in_backing (E : Env) (s : State) (pa : Nat) : Prop :=
  s.paging_backing_storage_addr ≤ E.__paging_va pa ∧
  E.__paging_va pa < (s.paging_backing_storage_addr + s.paging_backing_storage_size) % WORD

/-- The entry `e`, if it is invalid and stores a nonzero pointer, points into the backing
store. -/
def backing_ptr_ok (E : Env) (s : State) (e : Nat) : Prop :=
  e &&& PTE_V = 0 → stored_pa e ≠ 0 → in_backing E s (stored_pa e)

instance (E : Env) (s : State) (e : Nat) : Decidable (backing_ptr_ok E s e) := by
  unfold backing_ptr_ok in_backing
  exact inferInstance

/-- Every entry of the set `T` of entry addresses that is invalid and stores a nonzero
pointer points into the backing store. -/
def backing_inv (E : Env) (T : Nat → Prop) (s : State) : Prop :=
  ∀ a, T a → backing_ptr_ok E s (read64 s.mem a)

/-- Every entry of `T` lies outside the page at `p`. -/
def sep_from (T : Nat → Prop) (p : Nat) : Prop :=
  ∀ a, T a → word_outside_page a p

/-- Every entry of `T` is the word at `w` or does not overlap it. -/
def word_apart (T : Nat → Prop) (w : Nat) : Prop :=
  ∀ a, T a → a = w ∨ a + 8 ≤ w ∨ w + 8 ≤ a

/-- The frame at physical address `pa` lies in the enclave memory: its address `__va(pa)` is
in `[EYRIE_LOAD_START, freemem_va_start + freemem_size)`, the test `__swap_epm_page`
asserts. -/
def in_epm (E : Env) (s : State) (pa : Nat) : Prop :=
  E.EYRIE_LOAD_START ≤ E.__va pa ∧ E.__va pa < (s.freemem_va_start + s.freemem_size) % WORD

/-- No two distinct valid entries of the set `T` of leaf entry addresses map the same frame
of the enclave memory. -/
def no_alias (E : Env) (T : Nat → Prop) (s : State) : Prop :=
  ∀ a b, T a → T b → a ≠ b → read64 s.mem a &&& PTE_V ≠ 0 → read64 s.mem b &&& PTE_V ≠ 0 →
    stored_pa (read64 s.mem a) = stored_pa (read64 s.mem b) →
    ¬ in_epm E s (stored_pa (read64 s.mem a))

/-! ## Concrete sets of entries -/

/-- The two leaf entries of the concrete fault state: the entries of `0x1000` and of
`0x2000`. -/
def demoEntries : Nat → Prop :=
  fun a => a = 0xffffffff00003008 ∨ a = 0xffffffff00003010

/-- The memory `aliasMem` with a backing page whose fourth word is a valid entry for the frame
at `0x80003000`. -/
def aliasMem2 : Mem :=
  mem_of_words
    [ (0xffffffff00001000, 0x20000801), -- root[0] -> table at 0x80002000
      (0xffffffff00002000, 0x20000c01), -- level 2 [0] -> table at 0x80003000
      (0xffffffff00003008, 0x20000cdf), -- level 1 [1] -> frame 0x80003000, D A U X W R V
      (0xffffffff00003010, 0x240000de), -- level 1 [2] -> backing 0x90000000, D A U X W R
      (0xffffffff40000018, 0x20000cdf)
    ]

/-- The state over `aliasMem2` whose free memory is the page of the level-1 table. -/
def aliasState2 : State :=
  { demoState aliasMem2 with freemem_va_start := 0xffffffff00003000 }

/-- A page table with a resident user page at `0x1000` in the frame at `0x80004000`, a
resident user page at `0x2000` mapped to the frame at `0x80003000`, the page that holds the
level-1 table itself, and a swapped-out user page at `0x3000` whose entry points to the
backing page at `0x90000000`; the frame at `0x80004000` starts with the word `0x1111`, the
backing page with `0x2222`. -/
def roundTripMem : Mem :=
  mem_of_words
    [ (0xffffffff00001000, 0x20000801), -- root[0] -> table at 0x80002000
      (0xffffffff00002000, 0x20000c01), -- level 2 [0] -> table at 0x80003000
      (0xffffffff00003008, 0x200010df), -- level 1 [1] -> frame 0x80004000, D A U X W R V
      (0xffffffff00003010, 0x20000cdf), -- level 1 [2] -> frame 0x80003000, D A U X W R V
      (0xffffffff00003018, 0x240000de), -- level 1 [3] -> backing 0x90000000, D A U X W R
      (0xffffffff00004000, 0x1111),
      (0xffffffff40000000, 0x2222)
    ]

/-- The concrete fault state after the fault at `0x2000` has been handled. -/
def afterFirstFault : State :=
  (paging_handle_page_fault demoEnv (demoState faultMem) 0x2000).final

/-- The state over `roundTripMem` after the fault at `0x3000` has been handled. -/
def afterRoundTripFault : State :=
  (paging_handle_page_fault demoEnv (demoState roundTripMem) 0x3000).final

/-! ## The address a leaf maps, and further concrete configurations -/

/-- Modelled from the spec: the virtual address of the page that a leaf maps, from the indices
of the path that reaches it (root index `i3`, level-2 index `i2`, level-1 index `i1`, an index
below the level of a superpage leaf being 0): `(i3 << 30) | (i2 << 21) | (i1 << 12)`, with
bits 63..39 set when `i3 >= 0x100` (the canonical, sign-extended address). -/
def leaf_va (i3 i2 i1 : Nat) : Nat :=
  let a := (i3 <<< 30) ||| (i2 <<< 21) ||| (i1 <<< 12)
  if i3 ≥ 0x100 then 0xFFFFFF8000000000 ||| a else a

/-- The concrete fault state with a backing store of base address 0, fully allocated. -/
def fullStoreZeroBase : State :=
  { demoState faultMem with
    paging_backing_storage_addr := 0
    paging_next_backing_page_offset := 0x2000 }

/-- A page table in which the page at `0x1000` is resident and not user-accessible (level-1
entry 1, frame `0x80004000`), and the level-2 entry of index 1 is a valid user leaf, the
superpage at `0x200000`; the frame at `0x80004000` starts with the word `0x1111`. -/
def shadowedPage : Mem :=
  mem_of_words
    [ (0xffffffff00001000, 0x20000801), -- root[0] -> table at 0x80002000
      (0xffffffff00002000, 0x20000c01), -- level 2 [0] -> table at 0x80003000
      (0xffffffff00002008, 0x200800df), -- level 2 [1]: leaf, frame 0x80200000, D A U X W R V
      (0xffffffff00003008, 0x200010cf), -- level 1 [1] -> frame 0x80004000, D A X W R V, no U
      (0xffffffff00004000, 0x1111)
    ]

/-! ## The allocator -/

theorem alloc_step (s : State) (h : AllocInv s) :
    __alloc_backing_page s =
      if s.paging_next_backing_page_offset < s.paging_backing_storage_size then
        .ok (s.paging_backing_storage_addr + s.paging_next_backing_page_offset)
          { s with paging_next_backing_page_offset := s.paging_next_backing_page_offset + 4096 }
      else .ok 0 s := by
  obtain ⟨hb, hb0, ho, hw⟩ := h
  unfold RISCV_PAGE_SIZE at hb ho
  unfold __alloc_backing_page
  by_cases hlt : s.paging_next_backing_page_offset < s.paging_backing_storage_size
  · have h1 : ¬ s.paging_next_backing_page_offset ≥ s.paging_backing_storage_size := by omega
    have h2 : (s.paging_backing_storage_addr + s.paging_next_backing_page_offset) % WORD
        = s.paging_backing_storage_addr + s.paging_next_backing_page_offset := by
      apply Nat.mod_eq_of_lt; omega
    have h3 : (s.paging_next_backing_page_offset + RISCV_PAGE_SIZE) % WORD
        = s.paging_next_backing_page_offset + 4096 := by
      unfold RISCV_PAGE_SIZE WORD at *
      omega
    have h4 : IS_ALIGNED (s.paging_backing_storage_addr + s.paging_next_backing_page_offset)
        RISCV_PAGE_BITS = true := by
      unfold IS_ALIGNED RISCV_PAGE_BITS
      simp
      omega
    simp only [h1, hlt, if_true, if_false, h2, h3, h4]
  · have h1 : s.paging_next_backing_page_offset ≥ s.paging_backing_storage_size := by omega
    simp only [h1, hlt, if_true, if_false]

theorem allocState_closed (s : State) (h : AllocInv s) (k : Nat) :
    allocState s k = some (advance s (min k (allocCap s))) := by
  induction k with
  | zero => simp [allocState, advance]
  | succ k ih =>
    have hinv : AllocInv (advance s (min k (allocCap s))) := by
      obtain ⟨hb, hb0, ho, hw⟩ := h
      unfold RISCV_PAGE_SIZE at hb ho
      refine ⟨hb, hb0, ?_, hw⟩
      show (_ + 4096 * _) % RISCV_PAGE_SIZE = 0
      unfold RISCV_PAGE_SIZE
      omega
    rw [allocState, ih]
    simp only
    rw [alloc_step _ hinv]
    have hcap : allocCap s
        = (s.paging_backing_storage_size - s.paging_next_backing_page_offset + 4095) / 4096 := rfl
    rcases Nat.lt_or_ge k (allocCap s) with hk | hk
    · have e1 : min k (allocCap s) = k := by omega
      have e2 : min (k + 1) (allocCap s) = k + 1 := by omega
      rw [e1, e2]
      have e3 : (advance s k).paging_next_backing_page_offset
          < (advance s k).paging_backing_storage_size := by
        show s.paging_next_backing_page_offset + 4096 * k < s.paging_backing_storage_size
        omega
      simp only [e3, if_true]
      simp only [advance]
      rw [show s.paging_next_backing_page_offset + 4096 * k + 4096
            = s.paging_next_backing_page_offset + 4096 * (k + 1) by omega]
    · have e1 : min k (allocCap s) = allocCap s := by omega
      have e2 : min (k + 1) (allocCap s) = allocCap s := by omega
      rw [e1, e2]
      have e3 : ¬ (advance s (allocCap s)).paging_next_backing_page_offset
          < (advance s (allocCap s)).paging_backing_storage_size := by
        show ¬ s.paging_next_backing_page_offset + 4096 * allocCap s
            < s.paging_backing_storage_size
        omega
      simp only [e3, if_false]

theorem allocRet_closed (s : State) (h : AllocInv s) (k : Nat) :
    allocRet s k = some
      (if k < allocCap s then
        s.paging_backing_storage_addr + s.paging_next_backing_page_offset + 4096 * k
       else 0) := by
  have hinv : AllocInv (advance s (min k (allocCap s))) := by
    obtain ⟨hb, hb0, ho, hw⟩ := h
    unfold RISCV_PAGE_SIZE at hb ho
    refine ⟨hb, hb0, ?_, hw⟩
    show (_ + 4096 * _) % RISCV_PAGE_SIZE = 0
    unfold RISCV_PAGE_SIZE
    omega
  have hcap : allocCap s
      = (s.paging_backing_storage_size - s.paging_next_backing_page_offset + 4095) / 4096 := rfl
  rw [allocRet, allocState_closed s h k]
  simp only
  rw [alloc_step _ hinv]
  by_cases hk : k < allocCap s
  · have e1 : min k (allocCap s) = k := by omega
    rw [e1]
    have e3 : (advance s k).paging_next_backing_page_offset
        < (advance s k).paging_backing_storage_size := by
      show s.paging_next_backing_page_offset + 4096 * k < s.paging_backing_storage_size
      omega
    simp only [e3, hk, if_true]
    simp only [advance]
    congr 1
    omega
  · have e1 : min k (allocCap s) = allocCap s := by omega
    rw [e1]
    have e3 : ¬ (advance s (allocCap s)).paging_next_backing_page_offset
        < (advance s (allocCap s)).paging_backing_storage_size := by
      show ¬ s.paging_next_backing_page_offset + 4096 * allocCap s
          < s.paging_backing_storage_size
      omega
    simp only [e3, hk, if_false]

theorem allocOff_closed (s : State) (h : AllocInv s) (k : Nat) :
    allocOff s k = some (s.paging_next_backing_page_offset + 4096 * min k (allocCap s)) := by
  rw [allocOff, allocState_closed s h k]
  rfl

/-- C1 (amended with a nonzero base address): from an allocator state whose base address is
page-aligned and nonzero, whose offset is page-aligned and whose `base + size` stays below
`2 ^ 64`, every call of a sequence of calls of `__alloc_backing_page` returns; the offset never
decreases; a call that returns nonzero returns `base + offset`, page-aligned, and advances the
offset by one page; every earlier call then returned nonzero too, exactly one page lower per
call in between; and once a call returns 0 every later call returns 0 and leaves the offset
unchanged. -/
theorem C1_alloc_monotonic (s : State)
    (hb : s.paging_backing_storage_addr % RISCV_PAGE_SIZE = 0)
    (hb0 : s.paging_backing_storage_addr ≠ 0)
    (ho : s.paging_next_backing_page_offset % RISCV_PAGE_SIZE = 0)
    (hw : s.paging_backing_storage_addr + s.paging_backing_storage_size < WORD) (k : Nat) :
    ∃ r o o1, allocRet s k = some r ∧ allocOff s k = some o ∧ allocOff s (k + 1) = some o1 ∧
      o ≤ o1 ∧
      (r ≠ 0 → r = s.paging_backing_storage_addr + o ∧ r % RISCV_PAGE_SIZE = 0 ∧
        o1 = o + RISCV_PAGE_SIZE) ∧
      (r ≠ 0 → ∀ j, j < k → ∃ rj, allocRet s j = some rj ∧ rj ≠ 0 ∧
        r = rj + RISCV_PAGE_SIZE * (k - j)) ∧
      (r = 0 → ∀ j, k ≤ j → allocRet s j = some 0 ∧ allocOff s (j + 1) = some o) := by
  have h : AllocInv s := ⟨hb, hb0, ho, hw⟩
  unfold RISCV_PAGE_SIZE at *
  refine ⟨_, _, _, allocRet_closed s h k, allocOff_closed s h k, allocOff_closed s h (k + 1),
    by omega, ?_, ?_, ?_⟩
  · intro hr
    by_cases hk : k < allocCap s
    · simp only [hk, if_true] at hr ⊢
      refine ⟨by omega, by omega, by omega⟩
    · simp [hk] at hr
  · intro hr j hj
    by_cases hk : k < allocCap s
    · have hjc : j < allocCap s := by omega
      refine ⟨_, allocRet_closed s h j, ?_⟩
      simp only [hk, hjc, if_true]
      constructor
      · omega
      · have : 4096 * (k - j) = 4096 * k - 4096 * j := by omega
        omega
    · simp [hk] at hr
  · intro hr j hj
    by_cases hk : k < allocCap s
    · simp only [hk, if_true] at hr
      omega
    · have hjc : ¬ j < allocCap s := by omega
      rw [allocRet_closed s h j, allocOff_closed s h (j + 1)]
      simp only [hjc, if_false, true_and]
      congr 1
      omega

/-- Witness of C1: the allocator with base `0x10000` and two pages, at its third call. -/
theorem C1_alloc_monotonic_witness :
    ∃ r o o1, allocRet allocTwoPages 2 = some r ∧ allocOff allocTwoPages 2 = some o ∧
      allocOff allocTwoPages (2 + 1) = some o1 ∧ o ≤ o1 ∧
      (r ≠ 0 → r = allocTwoPages.paging_backing_storage_addr + o ∧ r % RISCV_PAGE_SIZE = 0 ∧
        o1 = o + RISCV_PAGE_SIZE) ∧
      (r ≠ 0 → ∀ j, j < 2 → ∃ rj, allocRet allocTwoPages j = some rj ∧ rj ≠ 0 ∧
        r = rj + RISCV_PAGE_SIZE * (2 - j)) ∧
      (r = 0 → ∀ j, 2 ≤ j → allocRet allocTwoPages j = some 0 ∧
        allocOff allocTwoPages (j + 1) = some o) :=
  C1_alloc_monotonic allocTwoPages (by decide) (by decide) (by decide) (by decide) 2

/-- Counterexample to C1 as stated: with base address 0 (page-aligned, no wrap-around) the
first call returns 0 although it allocated, the offset moves, and the second call returns
a nonzero address. -/
theorem C1_counterexample_zero_base :
    allocZeroBase.paging_backing_storage_addr % RISCV_PAGE_SIZE = 0 ∧
    allocZeroBase.paging_next_backing_page_offset % RISCV_PAGE_SIZE = 0 ∧
    allocZeroBase.paging_backing_storage_addr + allocZeroBase.paging_backing_storage_size < WORD ∧
    allocRet allocZeroBase 0 = some 0 ∧ allocOff allocZeroBase 1 = some 4096 ∧
    allocRet allocZeroBase 1 = some 4096 := by
  decide

/-- C2 at the failing input: with a backing store one page and a half long and the first page
handed out, `__alloc_backing_page` succeeds, the slot it returns ends after the end of the
reserved range, and the offset after the call exceeds the configured size. -/
theorem C2_alloc_slot_exceeds_store :
    allocRet allocPartialPage 0 = some 69632 ∧
    69632 + RISCV_PAGE_SIZE >
      allocPartialPage.paging_backing_storage_addr + allocPartialPage.paging_backing_storage_size ∧
    allocOff allocPartialPage 1 = some 8192 ∧
    8192 > allocPartialPage.paging_backing_storage_size := by
  decide

/-! ## The traversal -/

theorem leaves_loop_rank (E : Env) (m : Mem) (child : Nat → Nat → Nat → List Leaf)
    (level tb : Nat)
    (hchild : ∀ tb1 v k l, l ∈ child tb1 v k → is_user_valid l.entry = true → k < l.rank)
    (fuel : Nat) : ∀ i vaddr k l, l ∈ leaves_loop E m child level tb fuel i vaddr k →
      is_user_valid l.entry = true → k < l.rank := by
  induction fuel with
  | zero => intro i vaddr k l hl; simp [leaves_loop] at hl
  | succ fuel ih =>
    intro i vaddr k l hl huv
    rw [leaves_loop] at hl
    simp only at hl
    by_cases h0 : read64 m (tb + 8 * i) = 0
    · rw [if_pos h0] at hl
      exact ih _ _ _ _ hl huv
    · rw [if_neg h0] at hl
      by_cases hleaf : is_leaf level (read64 m (tb + 8 * i)) = true
      · rw [if_pos hleaf] at hl
        rcases List.mem_cons.mp hl with rfl | hl
        · simp only at huv ⊢
          rw [if_pos huv]
          omega
        · have := ih _ _ _ _ hl huv
          by_cases h1 : is_user_valid (read64 m (tb + 8 * i)) = true
          · rw [if_pos h1] at this; omega
          · rw [if_neg h1] at this; omega
      · rw [if_neg hleaf] at hl
        rcases List.mem_append.mp hl with hl | hl
        · exact hchild _ _ _ _ hl huv
        · exact ih _ _ _ _ hl huv

theorem leaves_rank (E : Env) (m : Mem) (level : Nat) :
    ∀ tb vaddr k l, l ∈ leaves E m level tb vaddr k →
      is_user_valid l.entry = true → k < l.rank := by
  induction level with
  | zero => intro tb vaddr k l hl; simp [leaves] at hl
  | succ level ih =>
    intro tb vaddr k l hl huv
    rw [leaves] at hl
    exact leaves_loop_rank E m _ _ _ ih 512 _ _ _ _ hl huv

theorem first_hit_nil (n : Nat) : first_hit [] n = 0 := rfl

theorem first_hit_cons (l : Leaf) (ls : List Leaf) (n : Nat) :
    first_hit (l :: ls) n = if is_hit n l = true then l.va else first_hit ls n := by
  unfold first_hit
  by_cases h : is_hit n l = true
  · simp [List.find?_cons, h]
  · simp [List.find?_cons, h]

theorem first_hit_eq_zero_iff (ls : List Leaf) (n : Nat) :
    first_hit ls n = 0 ↔ ∀ l ∈ ls, is_hit n l = false := by
  induction ls with
  | nil => simp [first_hit_nil]
  | cons l ls ih =>
    rw [first_hit_cons]
    by_cases h : is_hit n l = true
    · have hva : l.va ≠ 0 := by
        unfold is_hit at h
        simp at h
        exact h.2
      simp [h, hva]
    · simp [h, ih]

theorem first_hit_append (ls1 ls2 : List Leaf) (n : Nat) :
    first_hit (ls1 ++ ls2) n =
      if first_hit ls1 n ≠ 0 then first_hit ls1 n else first_hit ls2 n := by
  induction ls1 with
  | nil => simp [first_hit_nil]
  | cons l ls ih =>
    rw [List.cons_append, first_hit_cons, first_hit_cons]
    by_cases h : is_hit n l = true
    · have hva : l.va ≠ 0 := by
        unfold is_hit at h
        simp at h
        exact h.2
      simp [h, hva]
    · simp [h, ih]

theorem first_hit_zero_of_rank (ls : List Leaf) (n : Nat)
    (h : ∀ l ∈ ls, is_user_valid l.entry = true → n < l.rank) : first_hit ls n = 0 := by
  rw [first_hit_eq_zero_iff]
  intro l hl
  unfold is_hit
  by_cases huv : is_user_valid l.entry = true
  · have := h l hl huv
    have hne : (l.rank == n) = false := by simp; omega
    simp [hne]
  · simp [huv]

theorem traverse_loop_eq (E : Env) (m : Mem) (child : Nat → Nat → Nat → Nat)
    (childL : Nat → Nat → Nat → List Leaf) (level tb : Nat)
    (hrank : ∀ tb1 v k l, l ∈ childL tb1 v k → is_user_valid l.entry = true → k < l.rank)
    (hchild : ∀ tb1 v c k, 1 ≤ c → c < WORD →
      child tb1 v c = first_hit (childL tb1 v k) (k + c))
    (fuel : Nat) : ∀ i vaddr c k, 1 ≤ c → c < WORD →
      traverse_loop E m child level tb fuel i vaddr c =
        first_hit (leaves_loop E m childL level tb fuel i vaddr k) (k + c) := by
  induction fuel with
  | zero => intro i vaddr c k _ _; simp [traverse_loop, leaves_loop, first_hit_nil]
  | succ fuel ih =>
    intro i vaddr c k hc1 hc2
    rw [traverse_loop, leaves_loop]
    simp only
    by_cases h0 : read64 m (tb + 8 * i) = 0
    · rw [if_pos h0, if_pos h0]
      exact ih _ _ _ _ hc1 hc2
    · rw [if_neg h0, if_neg h0]
      by_cases hleaf : is_leaf level (read64 m (tb + 8 * i)) = true
      · rw [if_pos hleaf, if_pos hleaf, first_hit_cons]
        by_cases huv : is_user_valid (read64 m (tb + 8 * i)) = true
        · rw [if_pos huv, if_pos huv]
          have hdec : (c + (WORD - 1)) % WORD = c - 1 := by
            unfold WORD at *
            omega
          rw [hdec]
          by_cases hc : c - 1 = 0
          · have hc' : c = 1 := by omega
            subst hc'
            rw [if_pos hc]
            by_cases hva : virt_addr_of vaddr i = 0
            · have hnh : ¬ is_hit (k + 1)
                  { va := virt_addr_of vaddr i, entry := read64 m (tb + 8 * i),
                    rank := k + 1 } = true := by
                simp [is_hit, hva]
              rw [if_neg hnh, hva]
              symm
              apply first_hit_zero_of_rank
              intro l hl hl2
              exact leaves_loop_rank E m childL level tb hrank fuel _ _ _ _ hl hl2
            · have hh : is_hit (k + 1)
                  { va := virt_addr_of vaddr i, entry := read64 m (tb + 8 * i),
                    rank := k + 1 } = true := by
                simp [is_hit, hva, huv]
              rw [if_pos hh]
          · rw [if_neg hc]
            have hnh : ¬ is_hit (k + c)
                  { va := virt_addr_of vaddr i, entry := read64 m (tb + 8 * i),
                    rank := k + 1 } = true := by
              have : ¬ (1 = c) := by omega
              simp [is_hit, this]
            rw [if_neg hnh, ih _ _ (c - 1) (k + 1) (by omega) (by omega)]
            have hk : k + 1 + (c - 1) = k + c := by omega
            rw [hk]
        · rw [if_neg huv, if_neg huv]
          have hc : ¬ c = 0 := by omega
          have hnh : ¬ is_hit (k + c)
                { va := virt_addr_of vaddr i, entry := read64 m (tb + 8 * i),
                  rank := k } = true := by
            simp [is_hit, huv]
          rw [if_neg hc, if_neg hnh]
          exact ih _ _ _ _ hc1 hc2
      · rw [if_neg hleaf, if_neg hleaf, first_hit_append, ← hchild _ _ c k hc1 hc2]
        by_cases hret : child (E.__va ((pte_ppn (read64 m (tb + 8 * i)) <<< RISCV_PAGE_BITS) % WORD))
            (vpn (virt_addr_of vaddr i)) c ≠ 0
        · rw [if_pos hret, if_pos hret]
        · rw [if_neg hret, if_neg hret]
          exact ih _ _ _ _ hc1 hc2

theorem traverse_internal_eq (E : Env) (m : Mem) (level : Nat) :
    ∀ tb vaddr c k, 1 ≤ c → c < WORD →
      __traverse_page_table_and_pick_internal E m level tb vaddr c =
        first_hit (leaves E m level tb vaddr k) (k + c) := by
  induction level with
  | zero =>
    intro tb vaddr c k _ _
    simp [__traverse_page_table_and_pick_internal, leaves, first_hit_nil]
  | succ level ih =>
    intro tb vaddr c k hc1 hc2
    rw [__traverse_page_table_and_pick_internal, leaves]
    exact traverse_loop_eq E m _ _ _ _ (leaves_rank E m level) ih 512 _ _ _ _ hc1 hc2

theorem traverse_eq_first_hit (E : Env) (m : Mem) (n : Nat) (h1 : 1 ≤ n) (h2 : n < WORD) :
    __traverse_page_table_and_pick E m n = first_hit (all_leaves E m) n := by
  have h := traverse_internal_eq E m RISCV_PT_LEVELS E.root_page_table 0 n 0 h1 h2
  rw [Nat.zero_add] at h
  exact h

set_option maxRecDepth 1000000 in
/-- C4 at the failing input: the only resident user page sits at root index `0x100`, level-2
index 0 and level-1 index 1, the root entry being the first one of the upper half that is
followed. The traversal returns `0x4000001000`, whose bits 63..39 are zero, and not the
sign-extended `0xFFFFFFC000001000`. -/
theorem C4_upper_half_not_sign_extended :
    __traverse_page_table_and_pick demoEnv upperHalfPage 1 = 0x4000001000 ∧
    (0xFFFFFF8000000000 ||| (0x100 <<< 30) ||| (0 <<< 21) ||| (1 <<< 12)) % WORD
      = 0xFFFFFFC000001000 ∧
    __traverse_page_table_and_pick demoEnv upperHalfPage 1 ≠ 0xFFFFFFC000001000 := by
  decide!

/-! ## The victim selector -/

theorem pick_loop_step (E : Env) (s : State) (fuel : Nat) (hfc : frame_count s ≠ 0)
    (hrnd : E.sbi_random s.draws % WORD ≠ 0) :
    pick_loop E (fuel + 1) s =
      if __traverse_page_table_and_pick E s.mem
          (pick_count (E.sbi_random s.draws % WORD) (frame_count s)) ≠ 0 then
        .ok (__traverse_page_table_and_pick E s.mem
          (pick_count (E.sbi_random s.draws % WORD) (frame_count s))) (attempts s 1)
      else pick_loop E fuel (attempts s 1) := by
  rw [pick_loop]
  simp only
  rw [if_neg hfc, if_neg hrnd]
  rfl

theorem attempts_attempts (s : State) (a b : Nat) :
    attempts (attempts s a) b = attempts s (a + b) := by
  simp only [attempts, Nat.add_assoc]

theorem pick_count_range (rnd fc : Nat) (hfc : 0 < fc) (hw : fc < WORD) :
    1 ≤ pick_count rnd fc ∧ pick_count rnd fc ≤ fc := by
  unfold pick_count
  have h1 : rnd % fc < fc := Nat.mod_lt _ hfc
  have h2 : (rnd % fc + 1) % WORD = rnd % fc + 1 := Nat.mod_eq_of_lt (by omega)
  rw [h2]
  omega

theorem frame_count_lt (s : State) (hw : s.freemem_size < WORD) : frame_count s < WORD := by
  unfold frame_count RISCV_PAGE_BITS
  rw [Nat.shiftRight_eq_div_pow]
  exact lt_of_le_of_lt (Nat.div_le_self _ _) hw

/-- C5: with `frame_count > 0` and a stream of nonzero draws, if the traversal returns 0 for
every ordinal in `[1, frame_count]` then `__pick_page` returns 0 after exactly 3 draws and 3
traversals; and if attempt number `k < 3` is the first whose traversal returns a nonzero value
`v`, then `__pick_page` returns `v` after exactly `k + 1` draws and traversals. -/
theorem C5_pick_bounded_retry (E : Env) (s : State) (hw : s.freemem_size < WORD)
    (hfc : 0 < frame_count s) (hrnd : ∀ i, E.sbi_random i % WORD ≠ 0) :
    ((∀ n, 1 ≤ n → n ≤ frame_count s → __traverse_page_table_and_pick E s.mem n = 0) →
      __pick_page E s = .ok 0 (attempts s 3)) ∧
    (∀ k v, k < 3 →
      (∀ j, j < k → __traverse_page_table_and_pick E s.mem
        (pick_count (E.sbi_random (s.draws + j) % WORD) (frame_count s)) = 0) →
      __traverse_page_table_and_pick E s.mem
        (pick_count (E.sbi_random (s.draws + k) % WORD) (frame_count s)) = v →
      v ≠ 0 → __pick_page E s = .ok v (attempts s (k + 1))) := by
  have hfc0 : ∀ n, frame_count (attempts s n) ≠ 0 := by
    intro n
    show frame_count s ≠ 0
    omega
  have hstep : ∀ n fuel, pick_loop E (fuel + 1) (attempts s n) =
      if __traverse_page_table_and_pick E s.mem
          (pick_count (E.sbi_random (s.draws + n) % WORD) (frame_count s)) ≠ 0 then
        .ok (__traverse_page_table_and_pick E s.mem
          (pick_count (E.sbi_random (s.draws + n) % WORD) (frame_count s))) (attempts s (n + 1))
      else pick_loop E fuel (attempts s (n + 1)) := by
    intro n fuel
    rw [pick_loop_step E (attempts s n) fuel (hfc0 n) (hrnd _), attempts_attempts]
    rfl
  have hs0 : attempts s 0 = s := rfl
  constructor
  · intro hnone
    have hz : ∀ n, __traverse_page_table_and_pick E s.mem
          (pick_count (E.sbi_random (s.draws + n) % WORD) (frame_count s)) = 0 := by
      intro n
      have := pick_count_range (E.sbi_random (s.draws + n) % WORD) (frame_count s) hfc
        (frame_count_lt s hw)
      exact hnone _ this.1 this.2
    have h0 := hstep 0 2
    have h1 := hstep 1 1
    have h2 := hstep 2 0
    rw [hz, if_neg (by simp)] at h0 h1 h2
    rw [hs0] at h0
    unfold __pick_page
    rw [h0, h1, h2]
    rfl
  · intro k v hk hprev hv hv0
    have h0 := hstep 0 2
    have h1 := hstep 1 1
    have h2 := hstep 2 0
    rw [hs0] at h0
    unfold __pick_page
    rcases k with _ | _ | _ | k
    · rw [h0, hv, if_pos hv0]
    · have p0 := hprev 0 (by omega)
      rw [p0, if_neg (by simp)] at h0
      rw [h0, h1, hv, if_pos hv0]
    · have p0 := hprev 0 (by omega)
      have p1 := hprev 1 (by omega)
      rw [p0, if_neg (by simp)] at h0
      rw [p1, if_neg (by simp)] at h1
      rw [h0, h1, h2, hv, if_pos hv0]
    · omega

theorem read64_zeroMem (a : Nat) : read64 zeroMem a = 0 := by
  simp [read64, zeroMem]

theorem traverse_loop_zeroMem (E : Env) (child : Nat → Nat → Nat → Nat) (level tb : Nat)
    (fuel : Nat) : ∀ i vaddr c, traverse_loop E zeroMem child level tb fuel i vaddr c = 0 := by
  induction fuel with
  | zero => intro i vaddr c; rfl
  | succ fuel ih =>
    intro i vaddr c
    rw [traverse_loop]
    simp only
    rw [if_pos (read64_zeroMem _)]
    exact ih _ _ _

theorem traverse_zeroMem (E : Env) (n : Nat) : __traverse_page_table_and_pick E zeroMem n = 0 := by
  unfold __traverse_page_table_and_pick RISCV_PT_LEVELS
  rw [__traverse_page_table_and_pick_internal]
  exact traverse_loop_zeroMem E _ _ _ 512 _ _ _

theorem demoEnv_random_ne_zero (i : Nat) : demoEnv.sbi_random i % WORD ≠ 0 := by
  show (i % 1000 + 7) % WORD ≠ 0
  unfold WORD
  omega

/-- Witness of C5: with an empty page table every traversal returns 0 and `__pick_page` gives
up after 3 draws; with one resident user page the first attempt succeeds. -/
theorem C5_pick_bounded_retry_witness :
    __pick_page demoEnv (demoState zeroMem) = .ok 0 (attempts (demoState zeroMem) 3) ∧
    __pick_page demoEnv (demoState oneUserPage) = .ok 0x1000 (attempts (demoState oneUserPage) 1) :=
  ⟨(C5_pick_bounded_retry demoEnv (demoState zeroMem) (by decide) (by decide)
      demoEnv_random_ne_zero).1 (fun n _ _ => traverse_zeroMem demoEnv n),
   (C5_pick_bounded_retry demoEnv (demoState oneUserPage) (by decide) (by decide)
      demoEnv_random_ne_zero).2 0 0x1000 (by decide) (fun j hj => absurd hj (by omega))
      (by decide) (by decide)⟩

theorem find_uv_loop_rank (E : Env) (m : Mem) (child : Nat → Nat → Nat → List Leaf)
    (level tb : Nat)
    (hchild : ∀ tb1 v k l, (child tb1 v k).find? (fun l => is_user_valid l.entry) = some l →
      l.rank = k + 1)
    (fuel : Nat) : ∀ i vaddr k l,
      (leaves_loop E m child level tb fuel i vaddr k).find? (fun l => is_user_valid l.entry)
        = some l → l.rank = k + 1 := by
  induction fuel with
  | zero => intro i vaddr k l hl; simp [leaves_loop] at hl
  | succ fuel ih =>
    intro i vaddr k l hl
    rw [leaves_loop] at hl
    simp only at hl
    by_cases h0 : read64 m (tb + 8 * i) = 0
    · rw [if_pos h0] at hl
      exact ih _ _ _ _ hl
    · rw [if_neg h0] at hl
      by_cases hleaf : is_leaf level (read64 m (tb + 8 * i)) = true
      · rw [if_pos hleaf] at hl
        by_cases huv : is_user_valid (read64 m (tb + 8 * i)) = true
        · rw [if_pos huv, List.find?_cons_of_pos _ (by simpa using huv)] at hl
          injection hl with hl
          rw [← hl]
        · rw [if_neg huv, List.find?_cons_of_neg _ (by simpa using huv)] at hl
          exact ih _ _ _ _ hl
      · rw [if_neg hleaf, List.find?_append] at hl
        cases hc : (child (E.__va ((pte_ppn (read64 m (tb + 8 * i)) <<< RISCV_PAGE_BITS) % WORD))
            (vpn (virt_addr_of vaddr i)) k).find? (fun l => is_user_valid l.entry) with
        | none =>
          rw [hc, Option.none_or] at hl
          exact ih _ _ _ _ hl
        | some l1 =>
          rw [hc] at hl
          change some l1 = some l at hl
          injection hl with hl
          rw [← hl]
          exact hchild _ _ _ _ hc

theorem find_uv_rank (E : Env) (m : Mem) (level : Nat) : ∀ tb vaddr k l,
    (leaves E m level tb vaddr k).find? (fun l => is_user_valid l.entry) = some l →
      l.rank = k + 1 := by
  induction level with
  | zero => intro tb vaddr k l hl; simp [leaves] at hl
  | succ level ih =>
    intro tb vaddr k l hl
    rw [leaves] at hl
    exact find_uv_loop_rank E m _ _ _ ih 512 _ _ _ _ hl

theorem find_hit_of_find_uv (ls : List Leaf) (n : Nat) (l : Leaf)
    (h : ls.find? (fun l => is_user_valid l.entry) = some l) (hh : is_hit n l = true) :
    ls.find? (is_hit n) = some l := by
  induction ls with
  | nil => simp at h
  | cons x xs ih =>
    by_cases hx : is_user_valid x.entry = true
    · rw [List.find?_cons_of_pos _ (by simpa using hx)] at h
      injection h with h
      subst h
      rw [List.find?_cons_of_pos _ hh]
    · rw [List.find?_cons_of_neg _ (by simpa using hx)] at h
      have hnx : ¬ is_hit n x = true := by
        simp [is_hit, hx]
      rw [List.find?_cons_of_neg _ hnx]
      exact ih h

/-- The ordinal `(rnd % frame_count) + 1` lies in `[1, frame_count]`; for `frame_count = 1`
it is 1 for every draw; and then, when the address that the traversal reconstructs for the
first valid user leaf of the page table in depth-first order is nonzero, `__pick_page` returns
that reconstructed address at its first attempt, whatever the nonzero draw. The reconstructed
address is `Leaf.va`, the value of `virt_addr` in the code, which is the address the leaf
maps only for a level-1 leaf of the lower half. -/
theorem pick_single_frame :
    (∀ rnd fc, rnd ≠ 0 → rnd < WORD → 0 < fc → fc < WORD →
      1 ≤ pick_count rnd fc ∧ pick_count rnd fc ≤ fc) ∧
    (∀ rnd, pick_count rnd 1 = 1) ∧
    (∀ (E : Env) (s : State) (l : Leaf), frame_count s = 1 →
      E.sbi_random s.draws % WORD ≠ 0 →
      (all_leaves E s.mem).find? (fun l => is_user_valid l.entry) = some l → l.va ≠ 0 →
      __pick_page E s = .ok l.va (attempts s 1)) := by
  refine ⟨fun rnd fc _ _ hfc hw => pick_count_range rnd fc hfc hw, ?_, ?_⟩
  · intro rnd
    unfold pick_count WORD
    omega
  · intro E s l hfc hrnd hfind hva
    have hcount : pick_count (E.sbi_random s.draws % WORD) (frame_count s) = 1 := by
      rw [hfc]
      unfold pick_count WORD
      omega
    have hrank : l.rank = 1 := by
      have := find_uv_rank E s.mem RISCV_PT_LEVELS E.root_page_table 0 0 l hfind
      omega
    have huv : is_user_valid l.entry = true := by
      have := List.find?_some hfind
      simpa using this
    have hhit : is_hit 1 l = true := by
      simp [is_hit, huv, hrank, hva]
    have htrav : __traverse_page_table_and_pick E s.mem 1 = l.va := by
      rw [traverse_eq_first_hit E s.mem 1 (by omega) (by decide)]
      unfold first_hit
      rw [find_hit_of_find_uv _ 1 l hfind hhit]
    unfold __pick_page
    rw [pick_loop_step E s 2 (by omega) hrnd, hcount, htrav, if_pos hva]

set_option maxRecDepth 1000000 in
/-- C6 at the failing input: the free memory is one frame, so the ordinal is 1, and the first
valid user leaf of the page table is the level-2 entry of index 1 under root index 0, which
maps the virtual address `0x200000`; `__pick_page` returns `0x1000` at its first attempt.
Likewise, when the first valid user leaf is the level-1 entry of index 1 reached through root
index `0x100` and level-2 index 0, which maps `0xffffffc000001000`, `__pick_page` returns
`0x4000001000` at its first attempt. -/
theorem C6_pick_first_leaf_address_wrong :
    (frame_count (demoState superPage) = 1 ∧
      pick_count (demoEnv.sbi_random 0 % WORD) (frame_count (demoState superPage)) = 1 ∧
      is_leaf 3 (read64 superPage 0xffffffff00001000) = false ∧
      read64 superPage 0xffffffff00002000 = 0 ∧
      is_leaf 2 (read64 superPage 0xffffffff00002008) = true ∧
      is_user_valid (read64 superPage 0xffffffff00002008) = true ∧
      leaf_va 0 1 0 = 0x200000 ∧
      (__pick_page demoEnv (demoState superPage)).returned = true ∧
      (__pick_page demoEnv (demoState superPage)).final.walks = 1 ∧
      (__pick_page demoEnv (demoState superPage)).value = 0x1000) ∧
    (frame_count (demoState upperHalfPage) = 1 ∧
      is_leaf 3 (read64 upperHalfPage (0xffffffff00001000 + 8 * 0x100)) = false ∧
      is_leaf 2 (read64 upperHalfPage 0xffffffff00002000) = false ∧
      read64 upperHalfPage 0xffffffff00003000 = 0 ∧
      is_user_valid (read64 upperHalfPage 0xffffffff00003008) = true ∧
      leaf_va 0x100 0 1 = 0xffffffc000001000 ∧
      (__pick_page demoEnv (demoState upperHalfPage)).returned = true ∧
      (__pick_page demoEnv (demoState upperHalfPage)).final.walks = 1 ∧
      (__pick_page demoEnv (demoState upperHalfPage)).value = 0x4000001000) := by
  decide

/-! ## The page swap -/

/-- C7: when the assertions of `__swap_epm_page` hold, `encrypt` is false, `swap_page` is 0 or
`back_page`, and the two pages do not overlap (the requirement of `memcpy`), the call returns;
with a nonzero `swap_page` the two pages have exchanged their contents; with `swap_page = 0`
the backing page holds the bytes of the resident page and the resident page is unchanged; in
both cases every byte outside the two pages, and every global, is unchanged. -/
theorem C7_swap_exchanges_pages (E : Env) (s : State) (back_page epm_page swap_page : Nat)
    (h1 : epm_page ≥ E.EYRIE_LOAD_START)
    (h2 : epm_page < (s.freemem_va_start + s.freemem_size) % WORD)
    (h3 : back_page ≥ s.paging_backing_storage_addr)
    (h4 : back_page < (s.paging_backing_storage_addr + s.paging_backing_storage_size) % WORD)
    (h5 : swap_page = 0 ∨ swap_page = back_page)
    (hdisj : back_page + RISCV_PAGE_SIZE ≤ epm_page ∨ epm_page + RISCV_PAGE_SIZE ≤ back_page) :
    ∃ m1, __swap_epm_page E s back_page epm_page swap_page false = .ok () { s with mem := m1 } ∧
      (swap_page ≠ 0 →
        (∀ k, k < RISCV_PAGE_SIZE → m1 (back_page + k) = s.mem (epm_page + k)) ∧
        (∀ k, k < RISCV_PAGE_SIZE → m1 (epm_page + k) = s.mem (back_page + k))) ∧
      (swap_page = 0 →
        (∀ k, k < RISCV_PAGE_SIZE → m1 (back_page + k) = s.mem (epm_page + k)) ∧
        (∀ k, k < RISCV_PAGE_SIZE → m1 (epm_page + k) = s.mem (epm_page + k))) ∧
      (∀ x, ¬ (back_page ≤ x ∧ x < back_page + RISCV_PAGE_SIZE) →
        ¬ (epm_page ≤ x ∧ x < epm_page + RISCV_PAGE_SIZE) → m1 x = s.mem x) := by
  unfold RISCV_PAGE_SIZE at *
  by_cases hs : swap_page = 0
  · refine ⟨memcpy_page s.mem back_page (page_of s.mem epm_page), ?_, ?_, ?_, ?_⟩
    · unfold __swap_epm_page
      rw [if_neg (not_not.mpr h1), if_neg (not_not.mpr h2), if_neg (not_not.mpr h3),
        if_neg (not_not.mpr h4), if_neg (by simp), if_neg (not_not.mpr hs)]
    · intro h; exact absurd hs h
    · intro _
      constructor
      · intro k hk
        have hc : back_page ≤ back_page + k ∧ back_page + k < back_page + 4096 := by omega
        simp only [memcpy_page, page_of, RISCV_PAGE_SIZE, hc, and_self, if_true,
          Nat.add_sub_cancel_left]
      · intro k hk
        have hc : ¬ (back_page ≤ epm_page + k ∧ epm_page + k < back_page + 4096) := by omega
        simp only [memcpy_page, RISCV_PAGE_SIZE, hc, if_false]
    · intro x hx _
      simp only [memcpy_page, RISCV_PAGE_SIZE, hx, if_false]
  · have hsb : swap_page = back_page := by
      rcases h5 with h | h
      · exact absurd h hs
      · exact h
    refine ⟨memcpy_page (memcpy_page s.mem back_page (page_of s.mem epm_page)) epm_page
      (page_of s.mem swap_page), ?_, ?_, ?_, ?_⟩
    · unfold __swap_epm_page
      rw [if_neg (not_not.mpr h1), if_neg (not_not.mpr h2), if_neg (not_not.mpr h3),
        if_neg (not_not.mpr h4), if_neg (by simp), if_pos hs, if_pos hsb]
    · intro _
      constructor
      · intro k hk
        have hc : back_page ≤ back_page + k ∧ back_page + k < back_page + 4096 := by omega
        have hc2 : ¬ (epm_page ≤ back_page + k ∧ back_page + k < epm_page + 4096) := by omega
        simp only [memcpy_page, page_of, RISCV_PAGE_SIZE, hc, hc2, and_self, if_true, if_false,
          Nat.add_sub_cancel_left]
      · intro k hk
        have hc : epm_page ≤ epm_page + k ∧ epm_page + k < epm_page + 4096 := by omega
        simp only [memcpy_page, page_of, RISCV_PAGE_SIZE, hc, and_self, if_true,
          Nat.add_sub_cancel_left, hsb]
    · intro h; exact absurd h hs
    · intro x hx hx2
      simp only [memcpy_page, RISCV_PAGE_SIZE, hx, hx2, if_false]

/-- C8: `__swap_epm_page` ends in a failed assertion exactly when `epm_page` is outside
`[EYRIE_LOAD_START, freemem_va_start + freemem_size)`, or `back_page` is outside
`[paging_backing_storage_addr, paging_backing_storage_addr + paging_backing_storage_size)`
(the sums being the ones the code computes, modulo `2 ^ 64`), or `encrypt` is true, or
`swap_page` is nonzero and differs from `back_page`; it then leaves the whole state, memory
included, as it was; otherwise it returns. -/
theorem C8_swap_abort_iff (E : Env) (s : State) (back_page epm_page swap_page : Nat)
    (encrypt : Bool) :
    ((¬ (E.EYRIE_LOAD_START ≤ epm_page ∧
          epm_page < (s.freemem_va_start + s.freemem_size) % WORD) ∨
      ¬ (s.paging_backing_storage_addr ≤ back_page ∧
          back_page < (s.paging_backing_storage_addr + s.paging_backing_storage_size) % WORD) ∨
      encrypt = true ∨ (swap_page ≠ 0 ∧ swap_page ≠ back_page)) →
        __swap_epm_page E s back_page epm_page swap_page encrypt = .abort s) ∧
    (¬ (¬ (E.EYRIE_LOAD_START ≤ epm_page ∧
          epm_page < (s.freemem_va_start + s.freemem_size) % WORD) ∨
      ¬ (s.paging_backing_storage_addr ≤ back_page ∧
          back_page < (s.paging_backing_storage_addr + s.paging_backing_storage_size) % WORD) ∨
      encrypt = true ∨ (swap_page ≠ 0 ∧ swap_page ≠ back_page)) →
        ∃ s1, __swap_epm_page E s back_page epm_page swap_page encrypt = .ok () s1) ∧
    (∀ s1, __swap_epm_page E s back_page epm_page swap_page encrypt = .abort s1 → s1 = s) := by
  unfold __swap_epm_page
  by_cases h1 : epm_page ≥ E.EYRIE_LOAD_START
  · by_cases h2 : epm_page < (s.freemem_va_start + s.freemem_size) % WORD
    · by_cases h3 : back_page ≥ s.paging_backing_storage_addr
      · by_cases h4 : back_page <
            (s.paging_backing_storage_addr + s.paging_backing_storage_size) % WORD
        · by_cases h5 : encrypt = true
          · simp [h1, h2, h3, h4, h5]
          · by_cases h6 : swap_page = 0
            · simp [h1, h2, h3, h4, h5, h6]
            · by_cases h7 : swap_page = back_page
              · subst h7
                simp [h1, h2, h3, h4, h5, h6]
              · simp [h1, h2, h3, h4, h5, h6, h7]
        · simp [h1, h2, h3, h4]
      · simp [h1, h2, h3]
    · simp [h1, h2]
  · simp [h1]

/-! ## The page-fault handler -/

/-- C9: a fault whose address is at or above `EYRIE_LOAD_START`, or has no entry, or has an
entry with the valid bit set, ends in `rt_page_fault` with the state unchanged: memory (page
table and page contents), allocator offset, number of draws and number of traversals. -/
theorem C9_fault_rejected_unchanged (E : Env) (s : State) (addr : Nat)
    (h : addr ≥ E.EYRIE_LOAD_START ∨ E.pte_of_va s.mem addr = 0 ∨
      read64 s.mem (E.pte_of_va s.mem addr) &&& PTE_V ≠ 0) :
    paging_handle_page_fault E s addr = .fault s := by
  unfold paging_handle_page_fault
  by_cases h1 : addr ≥ E.EYRIE_LOAD_START
  · rw [if_pos h1]
  · rw [if_neg h1]
    simp only
    by_cases h2 : E.pte_of_va s.mem addr = 0
    · rw [if_pos h2]
    · rw [if_neg h2]
      rcases h with h | h | h
      · exact absurd h h1
      · exact absurd h h2
      · rw [if_pos h]

/-! ## Page-table entries and memory accesses -/

theorem word_eq : WORD = 2 ^ 64 := by norm_num [WORD]
theorem mask_eq : PTE_FLAG_MASK = 2 ^ 10 - 1 := by norm_num [PTE_FLAG_MASK]
theorem notv_eq : WORD - 1 - PTE_V = 2 ^ 64 - 2 := by norm_num [WORD, PTE_V]

theorem testBit_one (i : Nat) : Nat.testBit 1 i = decide (i = 0) := by
  have : (1 : Nat) = 2 ^ 1 - 1 := by norm_num
  rw [this, Nat.testBit_two_pow_sub_one]
  by_cases h : i = 0 <;> simp [h]

theorem testBit_notv (i : Nat) : Nat.testBit (2 ^ 64 - 2) i = (decide (i < 64) && decide (i ≠ 0)) := by
  have h : (2 ^ 64 - 2 : Nat) = (2 ^ 64 - 1) ^^^ 1 := by decide
  rw [h, Nat.testBit_xor, Nat.testBit_two_pow_sub_one, testBit_one]
  by_cases h1 : i < 64 <;> by_cases h2 : i = 0 <;> simp [h1, h2]

theorem pte_create_flags (p f : Nat) :
    pte_create p f &&& PTE_FLAG_MASK = (f &&& PTE_FLAG_MASK) ||| PTE_V := by
  unfold pte_create PTE_PPN_SHIFT
  rw [word_eq, mask_eq]
  apply Nat.eq_of_testBit_eq
  intro i
  simp only [Nat.testBit_and, Nat.testBit_or, Nat.testBit_mod_two_pow, Nat.testBit_shiftLeft,
    Nat.testBit_two_pow_sub_one, PTE_V, testBit_one]
  by_cases h1 : i < 10 <;> by_cases h2 : i = 0 <;> simp [h1, h2]

theorem pte_create_valid (p f : Nat) : pte_create p f &&& PTE_V = 1 := by
  unfold pte_create PTE_PPN_SHIFT
  rw [word_eq, mask_eq]
  apply Nat.eq_of_testBit_eq
  intro i
  simp only [Nat.testBit_and, Nat.testBit_or, Nat.testBit_mod_two_pow, Nat.testBit_shiftLeft,
    Nat.testBit_two_pow_sub_one, PTE_V, testBit_one]
  by_cases h2 : i = 0 <;> simp [h2]

theorem pte_create_ppn (p f : Nat) (hp : p < 2 ^ 54) : pte_ppn (pte_create p f) = p := by
  unfold pte_create pte_ppn PTE_PPN_SHIFT
  rw [word_eq, mask_eq]
  apply Nat.eq_of_testBit_eq
  intro i
  simp only [Nat.testBit_and, Nat.testBit_or, Nat.testBit_mod_two_pow, Nat.testBit_shiftLeft,
    Nat.testBit_two_pow_sub_one, PTE_V, testBit_one, Nat.testBit_shiftRight]
  by_cases h1 : i < 54
  · have : 10 + i < 64 := by omega
    simp [this]
  · have : p < 2 ^ i := lt_of_lt_of_le hp (Nat.pow_le_pow_right (by norm_num) (by omega))
    have hb : p.testBit i = false := Nat.testBit_lt_two_pow this
    simp [hb]
  
theorem pte_create_invalid_flags (p f : Nat) :
    pte_create_invalid p f &&& PTE_FLAG_MASK = f &&& PTE_FLAG_MASK &&& (WORD - 1 - PTE_V) := by
  rw [notv_eq]
  unfold pte_create_invalid PTE_PPN_SHIFT
  rw [notv_eq, word_eq, mask_eq]
  apply Nat.eq_of_testBit_eq
  intro i
  simp only [Nat.testBit_and, Nat.testBit_or, Nat.testBit_mod_two_pow, Nat.testBit_shiftLeft,
    Nat.testBit_two_pow_sub_one, testBit_notv]
  by_cases h1 : i < 10 <;> by_cases h2 : i = 0 <;> simp [h1, h2]

theorem pte_create_invalid_valid (p f : Nat) : pte_create_invalid p f &&& PTE_V = 0 := by
  unfold pte_create_invalid PTE_PPN_SHIFT
  rw [notv_eq, word_eq, mask_eq]
  apply Nat.eq_of_testBit_eq
  intro i
  simp only [Nat.testBit_and, Nat.testBit_or, Nat.testBit_mod_two_pow, Nat.testBit_shiftLeft,
    Nat.testBit_two_pow_sub_one, PTE_V, testBit_one, testBit_notv]
  by_cases h2 : i = 0 <;> simp [h2]

theorem pte_create_invalid_ppn (p f : Nat) (hp : p < 2 ^ 54) :
    pte_ppn (pte_create_invalid p f) = p := by
  unfold pte_create_invalid pte_ppn PTE_PPN_SHIFT
  rw [notv_eq, word_eq, mask_eq]
  apply Nat.eq_of_testBit_eq
  intro i
  simp only [Nat.testBit_and, Nat.testBit_or, Nat.testBit_mod_two_pow, Nat.testBit_shiftLeft,
    Nat.testBit_two_pow_sub_one, testBit_notv, Nat.testBit_shiftRight]
  by_cases h1 : i < 54
  · have : 10 + i < 64 := by omega
    simp [this]
  · have : p < 2 ^ i := lt_of_lt_of_le hp (Nat.pow_le_pow_right (by norm_num) (by omega))
    have hb : p.testBit i = false := Nat.testBit_lt_two_pow this
    simp [hb]
  
theorem flags_round_trip (g : Nat) (hv : g &&& PTE_V ≠ 0) :
    (g &&& PTE_FLAG_MASK &&& (WORD - 1 - PTE_V)) ||| PTE_V = g &&& PTE_FLAG_MASK := by
  rw [notv_eq, mask_eq]
  have hb : g.testBit 0 = true := by
    by_contra hb
    apply hv
    apply Nat.eq_of_testBit_eq
    intro i
    simp only [Nat.testBit_and, PTE_V, testBit_one, Nat.zero_testBit]
    by_cases h2 : i = 0
    · subst h2; simp at hb; simp [hb]
    · simp [h2]
  apply Nat.eq_of_testBit_eq
  intro i
  simp only [Nat.testBit_and, Nat.testBit_or, Nat.testBit_two_pow_sub_one, PTE_V, testBit_one,
    testBit_notv]
  by_cases h1 : i < 10 <;> by_cases h2 : i = 0 <;> simp [h1, h2, hb]
  all_goals (try (intros; omega))
theorem pte_create_lt (p f : Nat) : pte_create p f < WORD := by
  unfold pte_create
  rw [word_eq]
  apply Nat.or_lt_two_pow
  · apply Nat.or_lt_two_pow
    · exact Nat.mod_lt _ (by norm_num)
    · norm_num [PTE_V]
  · exact lt_of_le_of_lt Nat.and_le_right (by norm_num [PTE_FLAG_MASK])

theorem pte_create_invalid_lt (p f : Nat) : pte_create_invalid p f < WORD := by
  unfold pte_create_invalid
  rw [word_eq]
  apply Nat.or_lt_two_pow
  · exact Nat.mod_lt _ (by norm_num)
  · exact lt_of_le_of_lt Nat.and_le_right (by norm_num [WORD, PTE_V])

theorem read64_congr (m1 m2 : Mem) (a : Nat) (h : ∀ k, k < 8 → m1 (a + k) = m2 (a + k)) :
    read64 m1 a = read64 m2 a := by
  unfold read64
  have h0 := h 0 (by omega)
  rw [Nat.add_zero] at h0
  rw [h0, h 1 (by omega), h 2 (by omega), h 3 (by omega), h 4 (by omega), h 5 (by omega),
    h 6 (by omega), h 7 (by omega)]

theorem write64_byte_in (m : Mem) (a v k : Nat) (hk : k < 8) :
    write64 m a v (a + k) = (v / 256 ^ k) % 256 := by
  unfold write64
  have hc : a ≤ a + k ∧ a + k < a + 8 := by omega
  rw [if_pos hc, Nat.add_sub_cancel_left]

theorem write64_byte_out (m : Mem) (a v x : Nat) (hx : ¬ (a ≤ x ∧ x < a + 8)) :
    write64 m a v x = m x := by
  unfold write64
  rw [if_neg hx]

theorem memcpy_page_byte_out (m : Mem) (dst : Nat) (src : Nat → Nat) (x : Nat)
    (hx : ¬ (dst ≤ x ∧ x < dst + RISCV_PAGE_SIZE)) : memcpy_page m dst src x = m x := by
  unfold memcpy_page
  rw [if_neg hx]

theorem read64_write64_same (m : Mem) (a v : Nat) : read64 (write64 m a v) a = v % WORD := by
  unfold read64
  have h0 := write64_byte_in m a v 0 (by omega)
  rw [Nat.add_zero] at h0
  rw [h0, write64_byte_in m a v 1 (by omega), write64_byte_in m a v 2 (by omega),
    write64_byte_in m a v 3 (by omega), write64_byte_in m a v 4 (by omega),
    write64_byte_in m a v 5 (by omega), write64_byte_in m a v 6 (by omega),
    write64_byte_in m a v 7 (by omega)]
  norm_num [WORD]
  omega

theorem read64_write64_other (m : Mem) (a v b : Nat) (h : b + 8 ≤ a ∨ a + 8 ≤ b) :
    read64 (write64 m a v) b = read64 m b := by
  apply read64_congr
  intro k hk
  exact write64_byte_out m a v _ (by omega)

theorem read64_memcpy_page_other (m : Mem) (dst : Nat) (src : Nat → Nat) (b : Nat)
    (h : b + 8 ≤ dst ∨ dst + RISCV_PAGE_SIZE ≤ b) :
    read64 (memcpy_page m dst src) b = read64 m b := by
  apply read64_congr
  intro k hk
  exact memcpy_page_byte_out m dst src _ (by omega)

/-! ## Eviction and fault handling -/

theorem pick_loop_inv (E : Env) (fuel : Nat) : ∀ s,
    (∀ s1, pick_loop E fuel s ≠ .fault s1) ∧
    (∀ v s1, pick_loop E fuel s = .ok v s1 → ∃ n, s1 = attempts s n) := by
  induction fuel with
  | zero =>
    intro s
    constructor
    · intro s1 h; rw [pick_loop] at h; cases h
    · intro v s1 h
      rw [pick_loop] at h
      injection h with _ h
      exact ⟨0, h.symm⟩
  | succ fuel ih =>
    intro s
    rw [pick_loop]
    simp only
    by_cases hfc : frame_count s = 0
    · rw [if_pos hfc]
      exact ⟨fun s1 h => (by cases h), fun v s1 h => (by cases h)⟩
    · rw [if_neg hfc]
      by_cases hr : E.sbi_random s.draws % WORD = 0
      · rw [if_pos hr]
        exact ⟨fun s1 h => (by cases h), fun v s1 h => (by cases h)⟩
      · rw [if_neg hr]
        by_cases hc : __traverse_page_table_and_pick E s.mem
            (pick_count (E.sbi_random s.draws % WORD) (frame_count s)) ≠ 0
        · rw [if_pos hc]
          constructor
          · intro s1 h; cases h
          · intro v s1 h
            injection h with _ h
            exact ⟨1, h.symm⟩
        · rw [if_neg hc]
          obtain ⟨ih1, ih2⟩ := ih (attempts s 1)
          constructor
          · exact ih1
          · intro v s1 h
            obtain ⟨n, hn⟩ := ih2 v s1 h
            exact ⟨1 + n, by rw [hn, attempts_attempts]⟩

theorem swap_ok_inv (E : Env) (s s3 : State) (b p w : Nat) (hw : w ≠ 0)
    (h : __swap_epm_page E s b p w false = .ok () s3) :
    s3 = { s with mem := memcpy_page (memcpy_page s.mem b (page_of s.mem p)) p
                          (page_of s.mem w) } := by
  unfold __swap_epm_page at h
  split_ifs at h
  all_goals first
    | (cases h; done)
    | (cases h; rfl)

theorem evict_ok_inv (E : Env) (s s1 sp : State) (swap_va frame target_va : Nat)
    (hsw : swap_va ≠ 0) (hpick : __pick_page E s = .ok target_va sp)
    (h : paging_evict_and_free_one E s swap_va = .ok frame s1) (hf : frame ≠ 0) :
    frame = victim_frame E s target_va ∧
    s1.mem = write64
      (memcpy_page (memcpy_page s.mem swap_va (page_of s.mem (E.__va frame))) (E.__va frame)
        (page_of s.mem swap_va))
      (E.pte_of_va s.mem target_va)
      (pte_create_invalid (ppn (E.__paging_pa swap_va))
        (read64 (memcpy_page (memcpy_page s.mem swap_va (page_of s.mem (E.__va frame)))
          (E.__va frame) (page_of s.mem swap_va)) (E.pte_of_va s.mem target_va)
          &&& PTE_FLAG_MASK)) := by
  obtain ⟨n, hn⟩ := (pick_loop_inv E 3 s).2 target_va sp hpick
  have hmem : sp.mem = s.mem := by rw [hn]; rfl
  unfold paging_evict_and_free_one at h
  rw [hpick] at h
  simp only at h
  by_cases ht : target_va = 0
  · rw [if_pos ht] at h
    injection h with h1 h2
    exact absurd h1.symm hf
  · rw [if_neg ht, if_pos hsw] at h
    simp only at h
    by_cases c1 : ¬ swap_va ≥ sp.paging_backing_storage_addr
    · rw [if_pos c1] at h; cases h
    rw [if_neg c1] at h
    by_cases c2 : ¬ swap_va <
        (sp.paging_backing_storage_addr + sp.paging_backing_storage_size) % WORD
    · rw [if_pos c2] at h; cases h
    rw [if_neg c2] at h
    by_cases c3 : E.pte_of_va sp.mem target_va = 0
    · rw [if_pos c3] at h; cases h
    rw [if_neg c3] at h
    · cases hs : __swap_epm_page E sp swap_va
          (E.__va ((pte_ppn (read64 sp.mem (E.pte_of_va sp.mem target_va)) <<< RISCV_PAGE_BITS)
            % WORD)) swap_va false with
      | abort s3 => rw [hs] at h; cases h
      | fault s3 => rw [hs] at h; cases h
      | ok u s3 =>
        rw [hs] at h
        simp only at h
        have h3 := swap_ok_inv E sp s3 _ _ _ hsw hs
        injection h with h1 h2
        rw [hmem] at h1 h2 h3
        have hfr : frame = victim_frame E s target_va := h1.symm
        refine ⟨hfr, ?_⟩
        rw [← h2, h3]
        simp only
        rw [hfr]
        rfl

theorem handler_ok_inv (E : Env) (s s1 sp : State) (addr target_va : Nat)
    (hok : paging_handle_page_fault E s addr = .ok () s1)
    (hpick : __pick_page E s = .ok target_va sp) :
    read64 s.mem (E.pte_of_va s.mem addr) &&& PTE_V = 0 ∧
    ∃ m3, m3 = write64
      (memcpy_page (memcpy_page s.mem (E.__paging_va (backing_pa E s addr))
          (page_of s.mem (E.__va (victim_frame E s target_va))))
        (E.__va (victim_frame E s target_va))
        (page_of s.mem (E.__paging_va (backing_pa E s addr))))
      (E.pte_of_va s.mem target_va)
      (pte_create_invalid (ppn (E.__paging_pa (E.__paging_va (backing_pa E s addr))))
        (read64 (memcpy_page (memcpy_page s.mem (E.__paging_va (backing_pa E s addr))
            (page_of s.mem (E.__va (victim_frame E s target_va))))
          (E.__va (victim_frame E s target_va))
          (page_of s.mem (E.__paging_va (backing_pa E s addr))))
          (E.pte_of_va s.mem target_va) &&& PTE_FLAG_MASK)) ∧
      s1.mem = write64 m3 (E.pte_of_va s.mem addr)
        (pte_create (ppn (victim_frame E s target_va))
          (read64 m3 (E.pte_of_va s.mem addr) &&& PTE_FLAG_MASK)) := by
  unfold paging_handle_page_fault at hok
  by_cases c1 : addr ≥ E.EYRIE_LOAD_START
  · rw [if_pos c1] at hok; cases hok
  rw [if_neg c1] at hok
  simp only at hok
  by_cases c2 : E.pte_of_va s.mem addr = 0
  · rw [if_pos c2] at hok; cases hok
  rw [if_neg c2] at hok
  by_cases c3 : read64 s.mem (E.pte_of_va s.mem addr) &&& PTE_V ≠ 0
  · rw [if_pos c3] at hok; cases hok
  rw [if_neg c3] at hok
  by_cases c4 : E.__paging_va
      ((pte_ppn (read64 s.mem (E.pte_of_va s.mem addr)) <<< RISCV_PAGE_BITS) % WORD) = 0
  · rw [if_pos c4] at hok; cases hok
  rw [if_neg c4] at hok
  by_cases c5 : ¬ E.__paging_va
      ((pte_ppn (read64 s.mem (E.pte_of_va s.mem addr)) <<< RISCV_PAGE_BITS) % WORD)
        ≥ s.paging_backing_storage_addr
  · rw [if_pos c5] at hok; cases hok
  rw [if_neg c5] at hok
  by_cases c6 : ¬ E.__paging_va
      ((pte_ppn (read64 s.mem (E.pte_of_va s.mem addr)) <<< RISCV_PAGE_BITS) % WORD)
        < (s.paging_backing_storage_addr + s.paging_backing_storage_size) % WORD
  · rw [if_pos c6] at hok; cases hok
  rw [if_neg c6] at hok
  refine ⟨not_not.mp c3, ?_⟩
  cases hev : paging_evict_and_free_one E s (E.__paging_va
      ((pte_ppn (read64 s.mem (E.pte_of_va s.mem addr)) <<< RISCV_PAGE_BITS) % WORD)) with
  | abort s2 => rw [hev] at hok; cases hok
  | fault s2 => rw [hev] at hok; cases hok
  | ok frame s2 =>
    rw [hev] at hok
    simp only at hok
    by_cases c7 : frame = 0
    · rw [if_pos c7] at hok; cases hok
    rw [if_neg c7] at hok
    obtain ⟨hfr, hm⟩ := evict_ok_inv E s s2 sp _ frame target_va c4 hpick hev c7
    injection hok with _ hs1
    rw [hfr] at hm hs1
    refine ⟨_, rfl, ?_⟩
    rw [← hs1]
    simp only
    rw [hm]
    rfl

/-- C10 (amended with the separation of the two entries from the swapped pages): when
`paging_handle_page_fault` returns normally for `addr`, having picked the victim
`target_va`, and the entry of `addr` and the entry of the victim are two words that do not
overlap each other nor the backing page or the victim frame whose contents are exchanged, and
`__paging_pa` undoes `__paging_va` on the backing pointer, then: the entry of `addr` was
invalid and is now valid, with the page number of the victim frame and its own former flag
bits plus the valid bit; the entry of the victim, valid before, is now invalid, with the page
number of the backing pointer and its former flag bits minus the valid bit, so that setting
the valid bit again restores its former flags; and every byte outside the two entries and the
two pages is unchanged. -/
theorem C10_fault_rewrites_two_entries (E : Env) (s s1 sp : State) (addr target_va : Nat)
    (hok : paging_handle_page_fault E s addr = .ok () s1)
    (hpick : __pick_page E s = .ok target_va sp)
    (hvalid : read64 s.mem (E.pte_of_va s.mem target_va) &&& PTE_V ≠ 0)
    (hrt : E.__paging_pa (E.__paging_va (backing_pa E s addr)) = backing_pa E s addr)
    (hdist : E.pte_of_va s.mem addr + 8 ≤ E.pte_of_va s.mem target_va ∨
      E.pte_of_va s.mem target_va + 8 ≤ E.pte_of_va s.mem addr)
    (he1 : word_outside_page (E.pte_of_va s.mem addr) (E.__paging_va (backing_pa E s addr)))
    (he2 : word_outside_page (E.pte_of_va s.mem addr) (E.__va (victim_frame E s target_va)))
    (ht1 : word_outside_page (E.pte_of_va s.mem target_va)
      (E.__paging_va (backing_pa E s addr)))
    (ht2 : word_outside_page (E.pte_of_va s.mem target_va)
      (E.__va (victim_frame E s target_va))) :
    read64 s.mem (E.pte_of_va s.mem addr) &&& PTE_V = 0 ∧
    read64 s1.mem (E.pte_of_va s.mem addr) &&& PTE_V = 1 ∧
    pte_ppn (read64 s1.mem (E.pte_of_va s.mem addr)) = ppn (victim_frame E s target_va) ∧
    read64 s1.mem (E.pte_of_va s.mem addr) &&& PTE_FLAG_MASK
      = (read64 s.mem (E.pte_of_va s.mem addr) &&& PTE_FLAG_MASK) ||| PTE_V ∧
    read64 s1.mem (E.pte_of_va s.mem target_va) &&& PTE_V = 0 ∧
    pte_ppn (read64 s1.mem (E.pte_of_va s.mem target_va)) = ppn (backing_pa E s addr) ∧
    read64 s1.mem (E.pte_of_va s.mem target_va) &&& PTE_FLAG_MASK
      = read64 s.mem (E.pte_of_va s.mem target_va) &&& PTE_FLAG_MASK &&& (WORD - 1 - PTE_V) ∧
    (read64 s1.mem (E.pte_of_va s.mem target_va) &&& PTE_FLAG_MASK) ||| PTE_V
      = read64 s.mem (E.pte_of_va s.mem target_va) &&& PTE_FLAG_MASK ∧
    (∀ x, byte_outside_word x (E.pte_of_va s.mem addr) →
      byte_outside_word x (E.pte_of_va s.mem target_va) →
      byte_outside_page x (E.__paging_va (backing_pa E s addr)) →
      byte_outside_page x (E.__va (victim_frame E s target_va)) → s1.mem x = s.mem x) := by
  obtain ⟨hinv, m3, hm3, hs1⟩ := handler_ok_inv E s s1 sp addr target_va hok hpick
  unfold word_outside_page at he1 he2 ht1 ht2
  have hppn : ∀ a, ppn (a % WORD) < 2 ^ 54 := by
    intro a
    have hlt : a % WORD < WORD := Nat.mod_lt _ (by norm_num [WORD])
    generalize a % WORD = y at hlt
    unfold ppn RISCV_PAGE_BITS
    rw [Nat.shiftRight_eq_div_pow]
    unfold WORD at hlt
    omega
  have hppn_v : ppn (victim_frame E s target_va) < 2 ^ 54 := hppn _
  have hppn_b : ppn (backing_pa E s addr) < 2 ^ 54 := hppn _
  -- the entry of the victim after the exchange of the pages
  have ht_swap : read64 (memcpy_page (memcpy_page s.mem (E.__paging_va (backing_pa E s addr))
          (page_of s.mem (E.__va (victim_frame E s target_va))))
        (E.__va (victim_frame E s target_va))
        (page_of s.mem (E.__paging_va (backing_pa E s addr)))) (E.pte_of_va s.mem target_va)
      = read64 s.mem (E.pte_of_va s.mem target_va) := by
    rw [read64_memcpy_page_other _ _ _ _ ht2, read64_memcpy_page_other _ _ _ _ ht1]
  have he_swap : read64 (memcpy_page (memcpy_page s.mem (E.__paging_va (backing_pa E s addr))
          (page_of s.mem (E.__va (victim_frame E s target_va))))
        (E.__va (victim_frame E s target_va))
        (page_of s.mem (E.__paging_va (backing_pa E s addr)))) (E.pte_of_va s.mem addr)
      = read64 s.mem (E.pte_of_va s.mem addr) := by
    rw [read64_memcpy_page_other _ _ _ _ he2, read64_memcpy_page_other _ _ _ _ he1]
  rw [ht_swap, hrt] at hm3
  have he3 : read64 m3 (E.pte_of_va s.mem addr) = read64 s.mem (E.pte_of_va s.mem addr) := by
    rw [hm3, read64_write64_other _ _ _ _ hdist, he_swap]
  rw [he3] at hs1
  have hnew_e : read64 s1.mem (E.pte_of_va s.mem addr)
      = pte_create (ppn (victim_frame E s target_va))
          (read64 s.mem (E.pte_of_va s.mem addr) &&& PTE_FLAG_MASK) := by
    rw [hs1, read64_write64_same, Nat.mod_eq_of_lt (pte_create_lt _ _)]
  have hnew_t : read64 s1.mem (E.pte_of_va s.mem target_va)
      = pte_create_invalid (ppn (backing_pa E s addr))
          (read64 s.mem (E.pte_of_va s.mem target_va) &&& PTE_FLAG_MASK) := by
    rw [hs1, read64_write64_other _ _ _ _ (by omega), hm3, read64_write64_same,
      Nat.mod_eq_of_lt (pte_create_invalid_lt _ _)]
  have hmm : ∀ g, g &&& PTE_FLAG_MASK &&& PTE_FLAG_MASK = g &&& PTE_FLAG_MASK := by
    intro g
    rw [Nat.and_assoc, Nat.and_self]
  refine ⟨hinv, ?_, ?_, ?_, ?_, ?_, ?_, ?_, ?_⟩
  · rw [hnew_e, pte_create_valid]
  · rw [hnew_e, pte_create_ppn _ _ hppn_v]
  · rw [hnew_e, pte_create_flags, hmm]
  · rw [hnew_t, pte_create_invalid_valid]
  · rw [hnew_t, pte_create_invalid_ppn _ _ hppn_b]
  · rw [hnew_t, pte_create_invalid_flags, hmm]
  · rw [hnew_t, pte_create_invalid_flags, hmm]
    apply flags_round_trip
    exact hvalid
  · intro x hx1 hx2 hx3 hx4
    unfold byte_outside_word at hx1 hx2
    unfold byte_outside_page at hx3 hx4
    rw [hs1, write64_byte_out _ _ _ _ hx1, hm3, write64_byte_out _ _ _ _ hx2,
      memcpy_page_byte_out _ _ _ _ hx4, memcpy_page_byte_out _ _ _ _ hx3]

/-! ## Concrete runs -/

theorem ok_of_returned_unit (o : Outcome Unit) (h : o.returned = true) :
    o = .ok () o.final := by
  cases o with
  | ok u s => rfl
  | abort s => cases h
  | fault s => cases h

theorem ok_of_returned_nat (o : Outcome Nat) (v : Nat) (h : o.returned = true)
    (hv : o.value = v) : o = .ok v o.final := by
  cases o with
  | ok u s => cases hv; rfl
  | abort s => cases h
  | fault s => cases h

/-- Witness of C7: the resident page at `0xffffffff00004000` and the backing page at
`0xffffffff40000000` of the concrete fault state are exchanged. -/
theorem C7_swap_exchanges_pages_witness :
    ∃ m1, __swap_epm_page demoEnv (demoState faultMem) 0xffffffff40000000 0xffffffff00004000
        0xffffffff40000000 false = .ok () { demoState faultMem with mem := m1 } ∧
      (0xffffffff40000000 ≠ 0 →
        (∀ k, k < RISCV_PAGE_SIZE →
          m1 (0xffffffff40000000 + k) = (demoState faultMem).mem (0xffffffff00004000 + k)) ∧
        (∀ k, k < RISCV_PAGE_SIZE →
          m1 (0xffffffff00004000 + k) = (demoState faultMem).mem (0xffffffff40000000 + k))) ∧
      (0xffffffff40000000 = 0 →
        (∀ k, k < RISCV_PAGE_SIZE →
          m1 (0xffffffff40000000 + k) = (demoState faultMem).mem (0xffffffff00004000 + k)) ∧
        (∀ k, k < RISCV_PAGE_SIZE →
          m1 (0xffffffff00004000 + k) = (demoState faultMem).mem (0xffffffff00004000 + k))) ∧
      (∀ x, ¬ (0xffffffff40000000 ≤ x ∧ x < 0xffffffff40000000 + RISCV_PAGE_SIZE) →
        ¬ (0xffffffff00004000 ≤ x ∧ x < 0xffffffff00004000 + RISCV_PAGE_SIZE) →
        m1 x = (demoState faultMem).mem x) :=
  C7_swap_exchanges_pages demoEnv (demoState faultMem) 0xffffffff40000000 0xffffffff00004000
    0xffffffff40000000 (by decide) (by decide) (by decide) (by decide) (Or.inr rfl) (by decide)

set_option maxRecDepth 1000000 in
/-- Witness of C9: a fault at `EYRIE_LOAD_START`, a fault at `0x40000000`, which has no
entry, and a fault at the resident page `0x1000` all end in `rt_page_fault` with the state
unchanged. -/
theorem C9_fault_rejected_unchanged_witness :
    paging_handle_page_fault demoEnv (demoState faultMem) 0xffffffff00000000
      = .fault (demoState faultMem) ∧
    paging_handle_page_fault demoEnv (demoState faultMem) 0x40000000
      = .fault (demoState faultMem) ∧
    paging_handle_page_fault demoEnv (demoState faultMem) 0x1000
      = .fault (demoState faultMem) :=
  ⟨C9_fault_rejected_unchanged demoEnv (demoState faultMem) 0xffffffff00000000
      (Or.inl (by decide)),
   C9_fault_rejected_unchanged demoEnv (demoState faultMem) 0x40000000
      (Or.inr (Or.inl (by decide))),
   C9_fault_rejected_unchanged demoEnv (demoState faultMem) 0x1000
      (Or.inr (Or.inr (by decide)))⟩

set_option maxRecDepth 1000000 in
theorem demo_fault_returns :
    paging_handle_page_fault demoEnv (demoState faultMem) 0x2000
      = .ok () (paging_handle_page_fault demoEnv (demoState faultMem) 0x2000).final :=
  ok_of_returned_unit _ (by decide)

set_option maxRecDepth 1000000 in
theorem demo_fault_picks :
    __pick_page demoEnv (demoState faultMem)
      = .ok 0x1000 (__pick_page demoEnv (demoState faultMem)).final :=
  ok_of_returned_nat _ _ (by decide) (by decide)

set_option maxRecDepth 1000000 in
/-- Witness of C10: the fault at `0x2000` of the concrete fault state evicts the page at
`0x1000`; the entry of `0x2000` becomes `0x200010df` and the entry of `0x1000` becomes
`0x240000de`. -/
theorem C10_fault_rewrites_two_entries_witness :
    read64 (paging_handle_page_fault demoEnv (demoState faultMem) 0x2000).final.mem
      0xffffffff00003010 &&& PTE_FLAG_MASK = (0x240000de &&& PTE_FLAG_MASK) ||| PTE_V ∧
    read64 (paging_handle_page_fault demoEnv (demoState faultMem) 0x2000).final.mem
      0xffffffff00003008 &&& PTE_FLAG_MASK
        = 0x200010df &&& PTE_FLAG_MASK &&& (WORD - 1 - PTE_V) :=
  have h := C10_fault_rewrites_two_entries demoEnv (demoState faultMem)
    (paging_handle_page_fault demoEnv (demoState faultMem) 0x2000).final
    (__pick_page demoEnv (demoState faultMem)).final 0x2000 0x1000
    demo_fault_returns demo_fault_picks (by decide) (by decide) (by decide)
    (by unfold word_outside_page; decide) (by unfold word_outside_page; decide)
    (by unfold word_outside_page; decide) (by unfold word_outside_page; decide)
  ⟨h.2.2.2.1, h.2.2.2.2.2.2.1⟩

set_option maxRecDepth 1000000 in
/-- Counterexample to C10 as stated: when the victim frame is the page that holds the
level-1 table, the handler returns normally on the address `0x2000`, whose entry was invalid
with flag bits `0xde`, after evicting the victim `0x1000`, whose entry was valid; but the
exchange of the pages has overwritten the table, and the entry of `0x2000` ends with the flag
bits `0x01` instead of `0xdf`. -/
theorem C10_counterexample_table_in_victim_frame :
    (paging_handle_page_fault demoEnv aliasState 0x2000).returned = true ∧
    demoEnv.pte_of_va aliasState.mem 0x2000 = 0xffffffff00003010 ∧
    read64 aliasState.mem 0xffffffff00003010 &&& PTE_V = 0 ∧
    read64 aliasState.mem 0xffffffff00003010 &&& PTE_FLAG_MASK = 0xde ∧
    (__pick_page demoEnv aliasState).value = 0x1000 ∧
    demoEnv.pte_of_va aliasState.mem 0x1000 = 0xffffffff00003008 ∧
    read64 aliasState.mem 0xffffffff00003008 &&& PTE_V = 1 ∧
    read64 (paging_handle_page_fault demoEnv aliasState 0x2000).final.mem 0xffffffff00003010
      &&& PTE_FLAG_MASK = 0x01 := by
  decide

/-! ## Outcomes of the eviction -/

theorem pick_never_faults (E : Env) (s s1 : State) : __pick_page E s ≠ .fault s1 :=
  (pick_loop_inv E 3 s).1 s1

theorem pick_loop_abort_mem (E : Env) (fuel : Nat) : ∀ s s1,
    pick_loop E fuel s = .abort s1 → ∃ n, s1 = attempts s n ∨
      s1 = { attempts s n with draws := (attempts s n).draws + 1 } := by
  induction fuel with
  | zero => intro s s1 h; rw [pick_loop] at h; cases h
  | succ fuel ih =>
    intro s s1 h
    rw [pick_loop] at h
    simp only at h
    by_cases hfc : frame_count s = 0
    · rw [if_pos hfc] at h
      injection h with h
      exact ⟨0, Or.inl h.symm⟩
    · rw [if_neg hfc] at h
      by_cases hr : E.sbi_random s.draws % WORD = 0
      · rw [if_pos hr] at h
        injection h with h
        exact ⟨0, Or.inr h.symm⟩
      · rw [if_neg hr] at h
        by_cases hc : __traverse_page_table_and_pick E s.mem
            (pick_count (E.sbi_random s.draws % WORD) (frame_count s)) ≠ 0
        · rw [if_pos hc] at h; cases h
        · rw [if_neg hc] at h
          obtain ⟨n, hn⟩ := ih (attempts s 1) s1 h
          refine ⟨1 + n, ?_⟩
          rw [attempts_attempts] at hn
          exact hn

theorem pick_final_mem (E : Env) (s : State) :
    (__pick_page E s).final.mem = s.mem ∧ same_globals s (__pick_page E s).final := by
  cases h : __pick_page E s with
  | ok v s1 =>
    obtain ⟨n, hn⟩ := (pick_loop_inv E 3 s).2 v s1 h
    subst hn
    exact ⟨rfl, rfl, rfl, rfl, rfl⟩
  | abort s1 =>
    obtain ⟨n, hn | hn⟩ := pick_loop_abort_mem E 3 s s1 h
    · subst hn; exact ⟨rfl, rfl, rfl, rfl, rfl⟩
    · subst hn; exact ⟨rfl, rfl, rfl, rfl, rfl⟩
  | fault s1 => exact absurd h (pick_never_faults E s s1)

theorem same_globals_trans (s s1 s2 : State) (h1 : same_globals s s1)
    (h2 : same_globals s1 s2) : same_globals s s2 :=
  ⟨h2.1.trans h1.1, h2.2.1.trans h1.2.1, h2.2.2.1.trans h1.2.2.1, h2.2.2.2.trans h1.2.2.2⟩

theorem alloc_cases (s : State) :
    __alloc_backing_page s = .abort s ∨ __alloc_backing_page s = .ok 0 s ∨
    ∃ r off, r % RISCV_PAGE_SIZE = 0 ∧ r < WORD ∧
      __alloc_backing_page s = .ok r { s with paging_next_backing_page_offset := off } := by
  unfold __alloc_backing_page
  by_cases h1 : s.paging_next_backing_page_offset ≥ s.paging_backing_storage_size
  · rw [if_pos h1]
    exact Or.inr (Or.inl rfl)
  · rw [if_neg h1]
    simp only
    by_cases h2 : IS_ALIGNED
        ((s.paging_backing_storage_addr + s.paging_next_backing_page_offset) % WORD)
        RISCV_PAGE_BITS = true
    · rw [if_pos h2]
      refine Or.inr (Or.inr ⟨_, _, ?_, Nat.mod_lt _ (by decide), rfl⟩)
      unfold IS_ALIGNED RISCV_PAGE_BITS at h2
      unfold RISCV_PAGE_SIZE
      simpa using h2
    · rw [if_neg h2]
      exact Or.inl rfl

theorem alloc_inv (s s1 : State) (r : Nat) (h : __alloc_backing_page s = .ok r s1) :
    s1.mem = s.mem ∧ same_globals s s1 ∧ r % RISCV_PAGE_SIZE = 0 ∧ r < WORD := by
  rcases alloc_cases s with h1 | h1 | ⟨r1, off, ha, hl, h1⟩
  · rw [h1] at h; cases h
  · rw [h1] at h; cases h; exact ⟨rfl, ⟨rfl, rfl, rfl, rfl⟩, by decide, by decide⟩
  · rw [h1] at h; cases h; exact ⟨rfl, ⟨rfl, rfl, rfl, rfl⟩, ha, hl⟩

theorem alloc_abort_inv (s s1 : State) (h : __alloc_backing_page s = .abort s1) : s1 = s := by
  rcases alloc_cases s with h1 | h1 | ⟨r1, off, _, _, h1⟩
  · rw [h1] at h; cases h; rfl
  · rw [h1] at h; cases h
  · rw [h1] at h; cases h

theorem alloc_never_faults (s s1 : State) : __alloc_backing_page s ≠ .fault s1 := by
  intro h
  rcases alloc_cases s with h1 | h1 | ⟨r1, off, _, _, h1⟩
  · rw [h1] at h; cases h
  · rw [h1] at h; cases h
  · rw [h1] at h; cases h

theorem swap_cases (E : Env) (s : State) (b p w : Nat) :
    __swap_epm_page E s b p w false = .abort s ∨
    (E.EYRIE_LOAD_START ≤ p ∧ p < (s.freemem_va_start + s.freemem_size) % WORD ∧
      __swap_epm_page E s b p w false = .ok () { s with mem := swap_mem s.mem b p w }) := by
  unfold __swap_epm_page swap_mem
  by_cases h1 : p ≥ E.EYRIE_LOAD_START
  · by_cases h2 : p < (s.freemem_va_start + s.freemem_size) % WORD
    · by_cases h3 : b ≥ s.paging_backing_storage_addr
      · by_cases h4 : b < (s.paging_backing_storage_addr + s.paging_backing_storage_size) % WORD
        · by_cases h6 : w = 0
          · simp [h1, h2, h3, h4, h6]
          · by_cases h7 : w = b
            · subst h7
              simp [h1, h2, h3, h4, h6]
            · simp [h1, h2, h3, h4, h6, h7]
        · simp [h1, h2, h3, h4]
      · simp [h1, h2, h3]
    · simp [h1, h2]
  · simp [h1]

theorem evict_cases (E : Env) (s : State) (swap_va : Nat) :
    ((paging_evict_and_free_one E s swap_va).final.mem = s.mem ∧
      same_globals s (paging_evict_and_free_one E s swap_va).final ∧
      ((paging_evict_and_free_one E s swap_va).returned = true →
        __pick_page E s = .ok 0 (paging_evict_and_free_one E s swap_va).final ∧
        paging_evict_and_free_one E s swap_va
          = .ok 0 (paging_evict_and_free_one E s swap_va).final)) ∨
    (∃ tva sp dest s2, __pick_page E s = .ok tva sp ∧ tva ≠ 0 ∧
      (if swap_va ≠ 0 then Outcome.ok swap_va sp else __alloc_backing_page sp)
        = .ok dest s2 ∧
      same_globals s s2 ∧
      (swap_va = 0 → dest % RISCV_PAGE_SIZE = 0 ∧ dest < WORD) ∧
      s.paging_backing_storage_addr ≤ dest ∧
      dest < (s.paging_backing_storage_addr + s.paging_backing_storage_size) % WORD ∧
      E.pte_of_va s.mem tva ≠ 0 ∧
      E.EYRIE_LOAD_START ≤ E.__va (victim_frame E s tva) ∧
      E.__va (victim_frame E s tva) < (s.freemem_va_start + s.freemem_size) % WORD ∧
      paging_evict_and_free_one E s swap_va = .ok (victim_frame E s tva)
        { s2 with mem := evict_mem E s.mem dest (E.__va (victim_frame E s tva)) swap_va
                          (E.pte_of_va s.mem tva) }) := by
  have hpm := pick_final_mem E s
  unfold paging_evict_and_free_one
  cases hp : __pick_page E s with
  | abort s1 =>
    rw [hp] at hpm
    left
    exact ⟨hpm.1, hpm.2, fun h => by cases h⟩
  | fault s1 => exact absurd hp (pick_never_faults E s s1)
  | ok tva sp =>
    rw [hp] at hpm
    obtain ⟨hm, hg⟩ := hpm
    change sp.mem = s.mem at hm
    change same_globals s sp at hg
    simp only
    by_cases ht : tva = 0
    · rw [if_pos ht]
      left
      subst ht
      exact ⟨hm, hg, fun _ => ⟨rfl, rfl⟩⟩
    rw [if_neg ht]
    cases hd : (if swap_va ≠ 0 then Outcome.ok swap_va sp else __alloc_backing_page sp) with
    | abort s2 =>
      left
      by_cases hsw : swap_va ≠ 0
      · rw [if_pos hsw] at hd; cases hd
      · rw [if_neg hsw] at hd
        rw [alloc_abort_inv sp s2 hd]
        exact ⟨hm, hg, fun h => by cases h⟩
    | fault s2 =>
      by_cases hsw : swap_va ≠ 0
      · rw [if_pos hsw] at hd; cases hd
      · rw [if_neg hsw] at hd
        exact absurd hd (alloc_never_faults sp s2)
    | ok dest s2 =>
      have h2 : s2.mem = s.mem ∧ same_globals s s2 ∧
          (swap_va = 0 → dest % RISCV_PAGE_SIZE = 0 ∧ dest < WORD) := by
        by_cases hsw : swap_va ≠ 0
        · rw [if_pos hsw] at hd
          injection hd with _ hd
          subst hd
          exact ⟨hm, hg, fun h => absurd h hsw⟩
        · rw [if_neg hsw] at hd
          obtain ⟨a1, a2, a3, a4⟩ := alloc_inv sp s2 dest hd
          exact ⟨a1.trans hm, same_globals_trans s sp s2 hg a2, fun _ => ⟨a3, a4⟩⟩
      obtain ⟨hm2, hg2, hal⟩ := h2
      obtain ⟨hb2, hz2, hf1, hf2⟩ := hg2
      simp only
      by_cases c1 : ¬ dest ≥ s2.paging_backing_storage_addr
      · rw [if_pos c1]
        left
        exact ⟨hm2, ⟨hb2, hz2, hf1, hf2⟩, fun h => by cases h⟩
      rw [if_neg c1]
      by_cases c2 : ¬ dest <
          (s2.paging_backing_storage_addr + s2.paging_backing_storage_size) % WORD
      · rw [if_pos c2]
        left
        exact ⟨hm2, ⟨hb2, hz2, hf1, hf2⟩, fun h => by cases h⟩
      rw [if_neg c2]
      by_cases c3 : E.pte_of_va s2.mem tva = 0
      · rw [if_pos c3]
        left
        exact ⟨hm2, ⟨hb2, hz2, hf1, hf2⟩, fun h => by cases h⟩
      rw [if_neg c3]
      rcases swap_cases E s2 dest
          (E.__va ((pte_ppn (read64 s2.mem (E.pte_of_va s2.mem tva)) <<< RISCV_PAGE_BITS) % WORD))
          swap_va with hs | ⟨hs1, hs2, hs⟩
      · rw [hs]
        left
        exact ⟨hm2, ⟨hb2, hz2, hf1, hf2⟩, fun h => by cases h⟩
      · rw [hs]
        right
        simp only
        rw [hm2] at hs1 hs2 c3 ⊢
        rw [hb2] at c1 c2
        rw [hz2] at c2
        rw [hf1, hf2] at hs2
        exact ⟨tva, sp, dest, s2, rfl, ht, hd, ⟨hb2, hz2, hf1, hf2⟩, hal, not_not.mp c1,
          not_not.mp c2, c3, hs1, hs2, rfl⟩

/-! ## Failure paths of the eviction and shape of the picked victim -/

/-- When a victim is found, no target backing address is supplied, the backing store is
fully allocated and its base address is nonzero, the allocator returns 0, its result is not
tested, and the assertion `dest_va >= paging_backing_storage_addr` fails: the call does not
return, and memory and the allocator offset are as before the call. -/
theorem evict_full_store_aborts (E : Env) (s sp : State) (target_va : Nat)
    (hpick : __pick_page E s = .ok target_va sp) (ht : target_va ≠ 0)
    (hfull : s.paging_next_backing_page_offset ≥ s.paging_backing_storage_size)
    (hb : s.paging_backing_storage_addr ≠ 0) :
    paging_evict_and_free_one E s 0 = .abort sp ∧ sp.mem = s.mem ∧
    sp.paging_next_backing_page_offset = s.paging_next_backing_page_offset := by
  obtain ⟨n, hn⟩ := (pick_loop_inv E 3 s).2 target_va sp hpick
  have halloc : __alloc_backing_page sp = .ok 0 sp := by
    unfold __alloc_backing_page
    rw [hn]
    exact if_pos hfull
  have hb2 : ¬ 0 ≥ sp.paging_backing_storage_addr := by
    rw [hn]
    show ¬ 0 ≥ s.paging_backing_storage_addr
    omega
  refine ⟨?_, by rw [hn]; rfl, by rw [hn]; rfl⟩
  unfold paging_evict_and_free_one
  rw [hpick]
  simp only
  rw [if_neg ht, if_neg (by simp), halloc]
  simp only
  rw [if_pos hb2]

set_option maxRecDepth 1000000 in
/-- C12 at the failing input: in the concrete fault state with its backing store fully
allocated a victim is found (`0x1000`), no target backing address is supplied and the
allocator returns 0; `paging_evict_and_free_one` does not return 0 but ends in a failed
assertion. The assertion stops the call only because the base address of the store is not 0:
with the same store at base address 0 the call returns the frame address `0x80004000` after
copying the victim page to address 0 and rewriting its entry. -/
theorem C12_full_store_not_propagated :
    ((__pick_page demoEnv fullStoreState).value = 0x1000 ∧
      fullStoreState.paging_next_backing_page_offset
        ≥ fullStoreState.paging_backing_storage_size ∧
      (__alloc_backing_page (__pick_page demoEnv fullStoreState).final).returned = true ∧
      (__alloc_backing_page (__pick_page demoEnv fullStoreState).final).value = 0 ∧
      (paging_evict_and_free_one demoEnv fullStoreState 0).returned = false ∧
      (paging_evict_and_free_one demoEnv fullStoreState 0).aborted = true) ∧
    ((__pick_page demoEnv fullStoreZeroBase).value = 0x1000 ∧
      fullStoreZeroBase.paging_next_backing_page_offset
        ≥ fullStoreZeroBase.paging_backing_storage_size ∧
      (__alloc_backing_page (__pick_page demoEnv fullStoreZeroBase).final).value = 0 ∧
      (paging_evict_and_free_one demoEnv fullStoreZeroBase 0).returned = true ∧
      (paging_evict_and_free_one demoEnv fullStoreZeroBase 0).value = 0x80004000 ∧
      read64 fullStoreZeroBase.mem 0 = 0 ∧
      read64 (paging_evict_and_free_one demoEnv fullStoreZeroBase 0).final.mem 0 = 0x1111 ∧
      read64 fullStoreZeroBase.mem 0xffffffff00003008 &&& PTE_V ≠ 0 ∧
      read64 (paging_evict_and_free_one demoEnv fullStoreZeroBase 0).final.mem
        0xffffffff00003008 &&& PTE_V = 0) := by
  decide

set_option maxRecDepth 1000000 in
/-- C16 at the failing input: the address `0x2000` is below `EYRIE_LOAD_START`, its entry
exists, is invalid and stores the page number 0, but `__paging_va(0)` is not 0, so the test
`!back_ptr` does not take the exit: the handler goes on to the assertion on the backing
range, which fails, and does not end in `rt_page_fault`. -/
theorem C16_zero_pointer_reaches_assertion :
    0x2000 < demoEnv.EYRIE_LOAD_START ∧
    demoEnv.pte_of_va zeroPointerMem 0x2000 = 0xffffffff00003010 ∧
    read64 zeroPointerMem 0xffffffff00003010 &&& PTE_V = 0 ∧
    pte_ppn (read64 zeroPointerMem 0xffffffff00003010) = 0 ∧
    demoEnv.__paging_va 0 = 0xfffffffeb0000000 ∧
    (paging_handle_page_fault demoEnv (demoState zeroPointerMem) 0x2000).faulted = false ∧
    (paging_handle_page_fault demoEnv (demoState zeroPointerMem) 0x2000).aborted = true := by
  decide

set_option maxRecDepth 1000000 in
/-- C17 at the failing input: the root entry 0 is nonzero, has the valid bit clear and none of
R, W, X set; the traversal follows it all the same and returns `0x1000`, the address of a leaf
that is reachable only through that entry (the point lookup, which follows valid entries
only, finds no entry for `0x1000`). -/
theorem C17_invalid_intermediate_followed :
    read64 invalidIntermediate demoEnv.root_page_table ≠ 0 ∧
    read64 invalidIntermediate demoEnv.root_page_table &&& PTE_V = 0 ∧
    read64 invalidIntermediate demoEnv.root_page_table &&& (PTE_R ||| PTE_W ||| PTE_X) = 0 ∧
    __traverse_page_table_and_pick demoEnv invalidIntermediate 1 = 0x1000 ∧
    demoEnv.pte_of_va invalidIntermediate 0x1000 = 0 := by
  decide

set_option maxRecDepth 1000000 in
/-- C19 at the failing input: the selected leaf is the valid user level-2 entry of index 1
under root index 0, a superpage whose base address is `(0 << 30) | (1 << 21) = 0x200000`; the
traversal returns `0x1000`, and looking `0x1000` up does not reach the selected entry, at
`0xffffffff00002008`. -/
theorem C19_superpage_address_wrong :
    is_leaf 2 (read64 superPage 0xffffffff00002008) = true ∧
    is_user_valid (read64 superPage 0xffffffff00002008) = true ∧
    (0 <<< 30) ||| (1 <<< 21) = 0x200000 ∧
    __traverse_page_table_and_pick demoEnv superPage 1 = 0x1000 ∧
    demoEnv.pte_of_va superPage 0x1000 ≠ 0xffffffff00002008 := by
  decide

theorem first_hit_mem (ls : List Leaf) (n : Nat) (h : first_hit ls n ≠ 0) :
    ∃ l, l ∈ ls ∧ is_hit n l = true ∧ l.va = first_hit ls n := by
  unfold first_hit at h ⊢
  cases hf : ls.find? (is_hit n) with
  | none => rw [hf] at h; exact absurd rfl h
  | some l => exact ⟨l, List.mem_of_find?_eq_some hf, List.find?_some hf, rfl⟩

theorem is_user_valid_bits (e : Nat) (h : is_user_valid e = true) :
    e &&& PTE_V ≠ 0 ∧ e &&& PTE_U ≠ 0 := by
  unfold is_user_valid at h
  simp at h
  exact ⟨h.2, h.1⟩

theorem pick_loop_value (E : Env) (fuel : Nat) : ∀ s v s1, frame_count s < WORD →
    pick_loop E fuel s = .ok v s1 → v ≠ 0 →
    ∃ n, 1 ≤ n ∧ n < WORD ∧ v = __traverse_page_table_and_pick E s.mem n := by
  induction fuel with
  | zero =>
    intro s v s1 _ h hv
    rw [pick_loop] at h
    injection h with h _
    exact absurd h.symm hv
  | succ fuel ih =>
    intro s v s1 hw h hv
    rw [pick_loop] at h
    simp only at h
    by_cases hfc : frame_count s = 0
    · rw [if_pos hfc] at h; cases h
    rw [if_neg hfc] at h
    by_cases hr : E.sbi_random s.draws % WORD = 0
    · rw [if_pos hr] at h; cases h
    rw [if_neg hr] at h
    have hrange := pick_count_range (E.sbi_random s.draws % WORD) (frame_count s)
      (by omega) hw
    by_cases hc : __traverse_page_table_and_pick E s.mem
        (pick_count (E.sbi_random s.draws % WORD) (frame_count s)) ≠ 0
    · rw [if_pos hc] at h
      injection h with h _
      exact ⟨_, hrange.1, by omega, h.symm⟩
    · rw [if_neg hc] at h
      exact ih (attempts s 1) v s1 hw h hv

/-- Whenever `__pick_page` returns a nonzero value, that value is the address that the
traversal reconstructs (`Leaf.va`, the value of `virt_addr` in the code) for a leaf it meets
whose entry has both the valid bit and the user bit set. Nothing is said of the entry that
`pte_of_va` finds for the returned address. -/
theorem pick_returns_valid_user_leaf (E : Env) (s s1 : State) (v : Nat)
    (hw : s.freemem_size < WORD) (h : __pick_page E s = .ok v s1) (hv : v ≠ 0) :
    ∃ l, l ∈ all_leaves E s.mem ∧ l.va = v ∧ l.entry &&& PTE_V ≠ 0 ∧ l.entry &&& PTE_U ≠ 0 := by
  obtain ⟨n, h1, h2, hn⟩ := pick_loop_value E 3 s v s1 (frame_count_lt s hw) h hv
  rw [traverse_eq_first_hit E s.mem n h1 h2] at hn
  obtain ⟨l, hl, hhit, hva⟩ := first_hit_mem (all_leaves E s.mem) n (by rw [← hn]; exact hv)
  have huv : is_user_valid l.entry = true := by
    unfold is_hit at hhit
    simp at hhit
    exact hhit.1.1
  exact ⟨l, hl, by rw [hva, hn], (is_user_valid_bits _ huv).1, (is_user_valid_bits _ huv).2⟩

set_option maxRecDepth 1000000 in
/-- C18 at the failing input: the traversal stops at the level-2 entry of index 1, a valid
user leaf, and `__pick_page` returns `0x1000`; the entry of `0x1000`, the one the eviction
looks up with `pte_of_va`, is the level-1 entry of index 1, valid and not user-accessible:
that page is the victim, its content is copied to the backing store and its entry is
invalidated. And over the page table whose root entry 0 is not valid, `__pick_page` returns
`0x1000`, an address for which the lookup finds no entry. -/
theorem C18_non_user_entry_evicted :
    ((__pick_page demoEnv (demoState shadowedPage)).returned = true ∧
      (__pick_page demoEnv (demoState shadowedPage)).value = 0x1000 ∧
      demoEnv.pte_of_va shadowedPage 0x1000 = 0xffffffff00003008 ∧
      read64 shadowedPage 0xffffffff00003008 = 0x200010cf ∧
      read64 shadowedPage 0xffffffff00003008 &&& PTE_V ≠ 0 ∧
      read64 shadowedPage 0xffffffff00003008 &&& PTE_U = 0 ∧
      (paging_evict_and_free_one demoEnv (demoState shadowedPage) 0).returned = true ∧
      (paging_evict_and_free_one demoEnv (demoState shadowedPage) 0).value = 0x80004000 ∧
      read64 (paging_evict_and_free_one demoEnv (demoState shadowedPage) 0).final.mem
        0xffffffff40000000 = 0x1111 ∧
      read64 (paging_evict_and_free_one demoEnv (demoState shadowedPage) 0).final.mem
        0xffffffff00003008 &&& PTE_V = 0 ∧
      read64 (paging_evict_and_free_one demoEnv (demoState shadowedPage) 0).final.mem
        0xffffffff00002008 = 0x200800df) ∧
    ((__pick_page demoEnv (demoState invalidIntermediate)).returned = true ∧
      (__pick_page demoEnv (demoState invalidIntermediate)).value = 0x1000 ∧
      read64 invalidIntermediate demoEnv.root_page_table &&& PTE_V = 0 ∧
      demoEnv.pte_of_va invalidIntermediate 0x1000 = 0) := by
  decide!

/-- C20 (amended: a victim whose frame address is 0 is left out): when the frame address of
every victim that can be picked is nonzero, a call of `paging_evict_and_free_one` that returns
0 found no victim and left memory as it was, no entry invalidated and no page copied; and a
call that returns after changing memory returns a nonzero frame address. -/
theorem C20_zero_means_failure (E : Env) (s : State) (swap_va : Nat)
    (hframe : ∀ tva sp, __pick_page E s = .ok tva sp → tva ≠ 0 → victim_frame E s tva ≠ 0) :
    (∀ s1, paging_evict_and_free_one E s swap_va = .ok 0 s1 →
      s1.mem = s.mem ∧ __pick_page E s = .ok 0 s1) ∧
    (∀ r s1, paging_evict_and_free_one E s swap_va = .ok r s1 → s1.mem ≠ s.mem → r ≠ 0) := by
  have key : ∀ s1, paging_evict_and_free_one E s swap_va = .ok 0 s1 →
      s1.mem = s.mem ∧ __pick_page E s = .ok 0 s1 := by
    intro s1 h
    rcases evict_cases E s swap_va with
      ⟨hm, _, hr⟩ | ⟨tva, sp, dest, s2, hp, ht, _, _, _, _, _, _, _, _, he⟩
    · rw [h] at hm hr
      exact ⟨hm, (hr rfl).1⟩
    · rw [h] at he
      injection he with he _
      exact absurd he.symm (hframe tva sp hp ht)
  refine ⟨key, ?_⟩
  intro r s1 h hne hr
  subst hr
  exact hne (key s1 h).1

theorem pick_zeroMem :
    __pick_page demoEnv (demoState zeroMem) = .ok 0 (attempts (demoState zeroMem) 3) := by
  have hstep : ∀ n fuel, pick_loop demoEnv (fuel + 1) (attempts (demoState zeroMem) n) =
      pick_loop demoEnv fuel (attempts (demoState zeroMem) (n + 1)) := by
    intro n fuel
    have hfc : frame_count (attempts (demoState zeroMem) n) ≠ 0 := by
      show frame_count (demoState zeroMem) ≠ 0
      decide
    rw [pick_loop_step demoEnv _ fuel hfc (demoEnv_random_ne_zero _), attempts_attempts]
    have hz : __traverse_page_table_and_pick demoEnv (attempts (demoState zeroMem) n).mem
        (pick_count (demoEnv.sbi_random (attempts (demoState zeroMem) n).draws % WORD)
          (frame_count (attempts (demoState zeroMem) n))) = 0 := traverse_zeroMem demoEnv _
    rw [hz, if_neg (by simp)]
  have h0 := hstep 0 2
  have h1 := hstep 1 1
  have h2 := hstep 2 0
  unfold __pick_page
  have hs0 : attempts (demoState zeroMem) 0 = demoState zeroMem := rfl
  rw [hs0] at h0
  rw [h0, h1, h2]
  rfl

/-- Witness of C20: with an empty page table no victim is found, the call returns 0 and
memory is as before. -/
theorem C20_zero_means_failure_witness :
    (∀ s1, paging_evict_and_free_one demoEnv (demoState zeroMem) 0xffffffff40000000
        = .ok 0 s1 →
      s1.mem = (demoState zeroMem).mem ∧ __pick_page demoEnv (demoState zeroMem) = .ok 0 s1) ∧
    (∀ r s1, paging_evict_and_free_one demoEnv (demoState zeroMem) 0xffffffff40000000
        = .ok r s1 → s1.mem ≠ (demoState zeroMem).mem → r ≠ 0) :=
  C20_zero_means_failure demoEnv (demoState zeroMem) 0xffffffff40000000
    (fun tva sp hp ht => by
      rw [pick_zeroMem] at hp
      injection hp with hp _
      exact absurd hp.symm ht)

set_option maxRecDepth 1000000 in
/-- Counterexample to C20 as stated: with the runtime loaded at physical address 0 and a
resident user page in the frame of page number 0, the call evicts the page (its entry, valid
before, is rewritten as the invalid entry `0x240000de` and the backing page receives the
word `0x1111` of the frame) and returns 0. -/
theorem C20_counterexample_frame_zero :
    read64 frameZeroState.mem 0xffffffff00003008 &&& PTE_V = 1 ∧
    pte_ppn (read64 frameZeroState.mem 0xffffffff00003008) = 0 ∧
    (paging_evict_and_free_one zeroLoadEnv frameZeroState 0xffffffff40000000).returned = true ∧
    (paging_evict_and_free_one zeroLoadEnv frameZeroState 0xffffffff40000000).value = 0 ∧
    read64 (paging_evict_and_free_one zeroLoadEnv frameZeroState 0xffffffff40000000).final.mem
      0xffffffff00003008 = 0x240000de ∧
    read64 (paging_evict_and_free_one zeroLoadEnv frameZeroState 0xffffffff40000000).final.mem
      0xffffffff40000000 = 0x1111 := by
  decide

/-! ## Initialisation -/

/-- C15: when the supervisor reports size 0, or a nonzero size and address 0, `init_paging`
returns with the state unchanged (allocator globals, mappings and every slot of the trap
table); otherwise it records the size, resets the next offset to 0, adds one mapping of the
region, of `size >> RISCV_PAGE_BITS` pages from `EYRIE_PAGING_START` to the reported address,
with the flags R, W, D and A and without X, and it stores the fault handler in the slots of
the instruction, load and store page faults and in no other slot. -/
theorem C15_init_paging (I : InitEnv) (t : InitState) :
    ((I.sbi_query_multimem % WORD = 0 ∨ I.sbi_query_multimem_addr % WORD = 0) →
      init_paging I t = t) ∧
    (I.sbi_query_multimem % WORD ≠ 0 → I.sbi_query_multimem_addr % WORD ≠ 0 →
      (init_paging I t).paging_backing_storage_size = I.sbi_query_multimem % WORD ∧
      (init_paging I t).paging_next_backing_page_offset = 0 ∧
      (init_paging I t).mappings = t.mappings ++
        [{ vpn := vpn I.EYRIE_PAGING_START, ppn := ppn (I.sbi_query_multimem_addr % WORD),
           count := (I.sbi_query_multimem % WORD) >>> RISCV_PAGE_BITS,
           flags := PTE_R ||| PTE_W ||| PTE_D ||| PTE_A }] ∧
      (PTE_R ||| PTE_W ||| PTE_D ||| PTE_A) &&& PTE_X = 0 ∧
      (∀ j, (init_paging I t).trap_table j =
        if j = I.RISCV_EXCP_INST_PAGE_FAULT ∨ j = I.RISCV_EXCP_LOAD_PAGE_FAULT ∨
            j = I.RISCV_EXCP_STORE_PAGE_FAULT then I.handler
        else t.trap_table j)) := by
  constructor
  · intro h
    unfold init_paging
    by_cases h1 : I.sbi_query_multimem % WORD = 0
    · simp only [h1, if_true]
    · rcases h with h | h
      · exact absurd h h1
      · simp only [h1, h, if_true, if_false]
  · intro h1 h2
    unfold init_paging
    simp only [h1, h2, if_false]
    refine ⟨trivial, trivial, trivial, by decide, ?_⟩
    intro j
    unfold set_slot
    by_cases a : j = I.RISCV_EXCP_STORE_PAGE_FAULT
    · simp [a]
    · by_cases b : j = I.RISCV_EXCP_LOAD_PAGE_FAULT
      · simp [a, b]
      · by_cases c : j = I.RISCV_EXCP_INST_PAGE_FAULT
        · simp [a, b, c]
        · simp [a, b, c]

/-! ## Outcomes of the page-fault handler -/

theorem handler_cases (E : Env) (s : State) (addr : Nat) :
    ((paging_handle_page_fault E s addr).final.mem = s.mem ∧
      same_globals s (paging_handle_page_fault E s addr).final ∧
      (paging_handle_page_fault E s addr).returned = false) ∨
    (∃ tva sp, __pick_page E s = .ok tva sp ∧ tva ≠ 0 ∧ same_globals s sp ∧
      read64 s.mem (E.pte_of_va s.mem addr) &&& PTE_V = 0 ∧
      E.__paging_va (backing_pa E s addr) ≠ 0 ∧
      s.paging_backing_storage_addr ≤ E.__paging_va (backing_pa E s addr) ∧
      E.__paging_va (backing_pa E s addr)
        < (s.paging_backing_storage_addr + s.paging_backing_storage_size) % WORD ∧
      E.pte_of_va s.mem tva ≠ 0 ∧
      E.EYRIE_LOAD_START ≤ E.__va (victim_frame E s tva) ∧
      E.__va (victim_frame E s tva) < (s.freemem_va_start + s.freemem_size) % WORD ∧
      ((victim_frame E s tva = 0 ∧
        paging_handle_page_fault E s addr = .fault
          { sp with mem := evict_mem E s.mem (E.__paging_va (backing_pa E s addr))
                            (E.__va (victim_frame E s tva))
                            (E.__paging_va (backing_pa E s addr)) (E.pte_of_va s.mem tva) }) ∨
       (victim_frame E s tva ≠ 0 ∧
        paging_handle_page_fault E s addr = .ok ()
          { sp with mem := fault_mem E s.mem (E.__paging_va (backing_pa E s addr))
                            (E.__va (victim_frame E s tva)) (E.pte_of_va s.mem tva)
                            (E.pte_of_va s.mem addr) (victim_frame E s tva) }))) := by
  have hsg : same_globals s s := ⟨rfl, rfl, rfl, rfl⟩
  unfold paging_handle_page_fault
  by_cases c1 : addr ≥ E.EYRIE_LOAD_START
  · rw [if_pos c1]; exact Or.inl ⟨rfl, hsg, rfl⟩
  rw [if_neg c1]
  simp only
  by_cases c2 : E.pte_of_va s.mem addr = 0
  · rw [if_pos c2]; exact Or.inl ⟨rfl, hsg, rfl⟩
  rw [if_neg c2]
  by_cases c3 : read64 s.mem (E.pte_of_va s.mem addr) &&& PTE_V ≠ 0
  · rw [if_pos c3]; exact Or.inl ⟨rfl, hsg, rfl⟩
  rw [if_neg c3]
  by_cases c4 : E.__paging_va
      ((pte_ppn (read64 s.mem (E.pte_of_va s.mem addr)) <<< RISCV_PAGE_BITS) % WORD) = 0
  · rw [if_pos c4]; exact Or.inl ⟨rfl, hsg, rfl⟩
  rw [if_neg c4]
  by_cases c5 : ¬ E.__paging_va
      ((pte_ppn (read64 s.mem (E.pte_of_va s.mem addr)) <<< RISCV_PAGE_BITS) % WORD)
        ≥ s.paging_backing_storage_addr
  · rw [if_pos c5]; exact Or.inl ⟨rfl, hsg, rfl⟩
  rw [if_neg c5]
  by_cases c6 : ¬ E.__paging_va
      ((pte_ppn (read64 s.mem (E.pte_of_va s.mem addr)) <<< RISCV_PAGE_BITS) % WORD)
        < (s.paging_backing_storage_addr + s.paging_backing_storage_size) % WORD
  · rw [if_pos c6]; exact Or.inl ⟨rfl, hsg, rfl⟩
  rw [if_neg c6]
  rcases evict_cases E s (E.__paging_va
      ((pte_ppn (read64 s.mem (E.pte_of_va s.mem addr)) <<< RISCV_PAGE_BITS) % WORD)) with
    ⟨hm, hg, hr⟩ | ⟨tva, sp, dest, s2, hp, ht, hd, hg2, _, _, _, hpte, hepm, hepm2, he⟩
  · left
    cases hev : paging_evict_and_free_one E s (E.__paging_va
        ((pte_ppn (read64 s.mem (E.pte_of_va s.mem addr)) <<< RISCV_PAGE_BITS) % WORD)) with
    | abort s1 => rw [hev] at hm hg; exact ⟨hm, hg, rfl⟩
    | fault s1 => rw [hev] at hm hg; exact ⟨hm, hg, rfl⟩
    | ok frame s1 =>
      rw [hev] at hm hr hg
      have h0 := (hr rfl).2
      injection h0 with h0 _
      subst h0
      simp only
      rw [if_pos trivial]
      exact ⟨hm, hg, rfl⟩
  · right
    rw [if_pos c4] at hd
    injection hd with hd1 hd2
    subst hd1
    subst hd2
    rw [he]
    simp only
    refine ⟨tva, sp, hp, ht, hg2, not_not.mp c3, c4, not_not.mp c5, not_not.mp c6, hpte, hepm,
      hepm2, ?_⟩
    by_cases c7 : victim_frame E s tva = 0
    · rw [if_pos c7]
      exact Or.inl ⟨c7, rfl⟩
    · rw [if_neg c7]
      exact Or.inr ⟨c7, rfl⟩

/-! ## Memory after an eviction and after a fault -/

theorem swap_mem_byte_out (m : Mem) (dest epm w x : Nat) (h1 : byte_outside_page x dest)
    (h2 : byte_outside_page x epm) : swap_mem m dest epm w x = m x := by
  unfold byte_outside_page at h1 h2
  unfold swap_mem
  by_cases hw : w ≠ 0
  · rw [if_pos hw, memcpy_page_byte_out _ _ _ _ h2, memcpy_page_byte_out _ _ _ _ h1]
  · rw [if_neg hw, memcpy_page_byte_out _ _ _ _ h1]

theorem read64_swap_mem_other (m : Mem) (dest epm w a : Nat) (h1 : word_outside_page a dest)
    (h2 : word_outside_page a epm) : read64 (swap_mem m dest epm w) a = read64 m a := by
  unfold swap_mem
  by_cases hw : w ≠ 0
  · rw [if_pos hw, read64_memcpy_page_other _ _ _ _ h2, read64_memcpy_page_other _ _ _ _ h1]
  · rw [if_neg hw, read64_memcpy_page_other _ _ _ _ h1]

theorem swap_mem_dest (m : Mem) (dest epm w k : Nat) (hk : k < RISCV_PAGE_SIZE)
    (hd : dest + RISCV_PAGE_SIZE ≤ epm ∨ epm + RISCV_PAGE_SIZE ≤ dest) :
    swap_mem m dest epm w (dest + k) = m (epm + k) := by
  have hin : dest ≤ dest + k ∧ dest + k < dest + RISCV_PAGE_SIZE := by omega
  have hout : ¬ (epm ≤ dest + k ∧ dest + k < epm + RISCV_PAGE_SIZE) := by omega
  have h1 : memcpy_page m dest (page_of m epm) (dest + k) = m (epm + k) := by
    unfold memcpy_page page_of
    rw [if_pos hin, Nat.add_sub_cancel_left]
  unfold swap_mem
  by_cases hw : w ≠ 0
  · rw [if_pos hw, memcpy_page_byte_out _ _ _ _ hout, h1]
  · rw [if_neg hw, h1]

theorem swap_mem_epm (m : Mem) (dest epm w k : Nat) (hk : k < RISCV_PAGE_SIZE) (hw : w ≠ 0) :
    swap_mem m dest epm w (epm + k) = m (w + k) := by
  have hin : epm ≤ epm + k ∧ epm + k < epm + RISCV_PAGE_SIZE := by omega
  unfold swap_mem
  rw [if_pos hw]
  unfold memcpy_page page_of
  rw [if_pos hin, Nat.add_sub_cancel_left]

theorem read64_evict_mem_target (E : Env) (m : Mem) (dest epm w t : Nat) :
    read64 (evict_mem E m dest epm w t) t =
      pte_create_invalid (ppn (E.__paging_pa dest))
        (read64 (swap_mem m dest epm w) t &&& PTE_FLAG_MASK) := by
  unfold evict_mem
  rw [read64_write64_same, Nat.mod_eq_of_lt (pte_create_invalid_lt _ _)]

theorem read64_evict_mem_other (E : Env) (m : Mem) (dest epm w t a : Nat)
    (h1 : word_outside_page a dest) (h2 : word_outside_page a epm)
    (h3 : a + 8 ≤ t ∨ t + 8 ≤ a) :
    read64 (evict_mem E m dest epm w t) a = read64 m a := by
  unfold evict_mem
  rw [read64_write64_other _ _ _ _ h3, read64_swap_mem_other _ _ _ _ _ h1 h2]

theorem evict_mem_byte_out (E : Env) (m : Mem) (dest epm w t x : Nat)
    (h1 : byte_outside_page x dest) (h2 : byte_outside_page x epm)
    (h3 : byte_outside_word x t) : evict_mem E m dest epm w t x = m x := by
  unfold evict_mem
  rw [write64_byte_out _ _ _ _ h3, swap_mem_byte_out _ _ _ _ _ h1 h2]

theorem ppn_lt (x : Nat) (h : x < WORD) : ppn x < 2 ^ 54 := by
  unfold ppn RISCV_PAGE_BITS
  rw [Nat.shiftRight_eq_div_pow]
  unfold WORD at h
  omega

theorem stored_pa_create_invalid (p f : Nat) (hp : p < 2 ^ 54) :
    stored_pa (pte_create_invalid p f) = (p <<< RISCV_PAGE_BITS) % WORD := by
  unfold stored_pa
  rw [pte_create_invalid_ppn p f hp]

theorem stored_pa_create (p f : Nat) (hp : p < 2 ^ 54) :
    stored_pa (pte_create p f) = (p <<< RISCV_PAGE_BITS) % WORD := by
  unfold stored_pa
  rw [pte_create_ppn p f hp]

theorem stored_pa_aligned (e : Nat) :
    (ppn (stored_pa e) <<< RISCV_PAGE_BITS) % WORD = stored_pa e := by
  unfold stored_pa ppn RISCV_PAGE_BITS
  rw [Nat.shiftRight_eq_div_pow, Nat.shiftLeft_eq, Nat.shiftLeft_eq]
  generalize pte_ppn e = y
  unfold WORD
  omega

theorem stored_pa_lt (e : Nat) : stored_pa e < WORD :=
  Nat.mod_lt _ (by decide)

/-! ## The backing-pointer invariant -/

theorem backing_ptr_ok_globals (E : Env) (s s1 : State) (e : Nat) (hg : same_globals s s1)
    (h : backing_ptr_ok E s e) : backing_ptr_ok E s1 e := by
  unfold backing_ptr_ok in_backing at *
  rw [hg.1, hg.2.1]
  exact h

theorem same_globals_with_mem (s s2 : State) (m : Mem) (h : same_globals s s2) :
    same_globals s { s2 with mem := m } := h

theorem backing_ptr_ok_valid (E : Env) (s : State) (e : Nat) (h : e &&& PTE_V = 1) :
    backing_ptr_ok E s e := by
  intro h0
  rw [h] at h0
  cases h0

theorem backing_ok_evict_mem (E : Env) (T : Nat → Prop) (s : State) (dest epm w t : Nat)
    (hpa : E.__paging_pa dest < WORD)
    (htr : E.__paging_va ((ppn (E.__paging_pa dest) <<< RISCV_PAGE_BITS) % WORD) = dest)
    (h1 : s.paging_backing_storage_addr ≤ dest)
    (h2 : dest < (s.paging_backing_storage_addr + s.paging_backing_storage_size) % WORD)
    (hinv : backing_inv E T s) (hs1 : sep_from T dest) (hs2 : sep_from T epm)
    (hs3 : word_apart T t) :
    ∀ a, T a → backing_ptr_ok E s (read64 (evict_mem E s.mem dest epm w t) a) := by
  intro a ha
  rcases hs3 a ha with rfl | hd
  · rw [read64_evict_mem_target]
    intro _ _
    rw [stored_pa_create_invalid _ _ (ppn_lt _ hpa)]
    unfold in_backing
    rw [htr]
    exact ⟨h1, h2⟩
  · rw [read64_evict_mem_other E s.mem dest epm w t a (hs1 a ha) (hs2 a ha) hd]
    exact hinv a ha

/-- C13 (amended with the separation of the entries from the swapped pages): let `T` be a
set of entry addresses that lie outside every page of the backing store and outside the frame
of any victim that can be picked, and that do not partly overlap the entry of that victim;
let `__paging_pa` return 64-bit values and be undone by `__paging_va` on page-aligned
addresses. If every invalid entry of `T` with a nonzero stored pointer points into the
backing store, then the same holds in the state in which any call of
`paging_evict_and_free_one` with a page-aligned (or zero) target, and any call of
`paging_handle_page_fault` whose backing address is page-aligned and whose entry does not
partly overlap an entry of `T`, ends, whatever its outcome. -/
theorem C13_backing_pointers_preserved (E : Env) (T : Nat → Prop) (s : State)
    (hpa : ∀ v, E.__paging_pa v < WORD)
    (htr : ∀ d, d % RISCV_PAGE_SIZE = 0 → d < WORD →
      E.__paging_va ((ppn (E.__paging_pa d) <<< RISCV_PAGE_BITS) % WORD) = d)
    (hinv : backing_inv E T s)
    (hback : ∀ d, s.paging_backing_storage_addr ≤ d →
      d < (s.paging_backing_storage_addr + s.paging_backing_storage_size) % WORD →
      sep_from T d)
    (hvict : ∀ tva sp, __pick_page E s = .ok tva sp → tva ≠ 0 →
      sep_from T (E.__va (victim_frame E s tva)) ∧ word_apart T (E.pte_of_va s.mem tva)) :
    (∀ swap_va, swap_va % RISCV_PAGE_SIZE = 0 →
      backing_inv E T (paging_evict_and_free_one E s swap_va).final) ∧
    (∀ addr, E.__paging_va (backing_pa E s addr) % RISCV_PAGE_SIZE = 0 →
      word_apart T (E.pte_of_va s.mem addr) →
      backing_inv E T (paging_handle_page_fault E s addr).final) := by
  have hW : ∀ x y, x < y % WORD → x < WORD := fun x y h =>
    lt_trans h (Nat.mod_lt _ (by decide))
  constructor
  · intro swap_va hal
    rcases evict_cases E s swap_va with
      ⟨hm, hg, _⟩ | ⟨tva, sp, dest, s2, hp, ht, hd, hg, hal0, h1, h2, _, _, _, he⟩
    · intro a ha
      rw [hm]
      exact backing_ptr_ok_globals E s _ _ hg (hinv a ha)
    · rw [he]
      have hda : dest % RISCV_PAGE_SIZE = 0 := by
        by_cases hsw : swap_va = 0
        · exact (hal0 hsw).1
        · rw [if_pos hsw] at hd
          injection hd with hd _
          rw [← hd]
          exact hal
      obtain ⟨hv1, hv2⟩ := hvict tva sp hp ht
      intro a ha
      exact backing_ptr_ok_globals E s _ _ (same_globals_with_mem s s2 _ hg)
        (backing_ok_evict_mem E T s dest _ swap_va _ (hpa dest) (htr dest hda (hW _ _ h2))
          h1 h2 hinv (hback dest h1 h2) hv1 hv2 a ha)
  · intro addr hal hap
    rcases handler_cases E s addr with
      ⟨hm, hg, _⟩ | ⟨tva, sp, hp, ht, hg, _, _, h1, h2, _, _, _, hc⟩
    · intro a ha
      rw [hm]
      exact backing_ptr_ok_globals E s _ _ hg (hinv a ha)
    · obtain ⟨hv1, hv2⟩ := hvict tva sp hp ht
      have hev := backing_ok_evict_mem E T s (E.__paging_va (backing_pa E s addr))
        (E.__va (victim_frame E s tva)) (E.__paging_va (backing_pa E s addr))
        (E.pte_of_va s.mem tva) (hpa _) (htr _ hal (hW _ _ h2)) h1 h2 hinv
        (hback _ h1 h2) hv1 hv2
      rcases hc with ⟨_, he⟩ | ⟨_, he⟩
      · rw [he]
        intro a ha
        exact backing_ptr_ok_globals E s _ _ (same_globals_with_mem s sp _ hg) (hev a ha)
      · rw [he]
        intro a ha
        apply backing_ptr_ok_globals E s _ _ (same_globals_with_mem s sp _ hg)
        show backing_ptr_ok E s (read64 (fault_mem E s.mem _ _ _ _ _) a)
        unfold fault_mem
        rcases hap a ha with rfl | hd
        · rw [read64_write64_same, Nat.mod_eq_of_lt (pte_create_lt _ _)]
          exact backing_ptr_ok_valid E s _ (pte_create_valid _ _)
        · rw [read64_write64_other _ _ _ _ hd]
          exact hev a ha

theorem demoEnv_paging_pa_lt (v : Nat) : demoEnv.__paging_pa v < WORD :=
  Nat.mod_lt _ (by decide)

theorem demoEnv_translation (d : Nat) (h1 : d % RISCV_PAGE_SIZE = 0) (h2 : d < WORD) :
    demoEnv.__paging_va ((ppn (demoEnv.__paging_pa d) <<< RISCV_PAGE_BITS) % WORD) = d := by
  show ((ppn ((d + (WORD - 0xffffffff40000000) + 0x90000000) % WORD) <<< RISCV_PAGE_BITS) % WORD
    + (WORD - 0x90000000) + 0xffffffff40000000) % WORD = d
  unfold ppn RISCV_PAGE_BITS
  unfold RISCV_PAGE_SIZE at h1
  rw [Nat.shiftRight_eq_div_pow, Nat.shiftLeft_eq]
  unfold WORD at *
  omega

theorem demoEntries_inv : backing_inv demoEnv demoEntries (demoState faultMem) := by
  intro a ha
  rcases ha with rfl | rfl
  · decide
  · decide

theorem demoEntries_outside_backing (d : Nat)
    (h : (demoState faultMem).paging_backing_storage_addr ≤ d) : sep_from demoEntries d := by
  intro a ha
  have hb : (demoState faultMem).paging_backing_storage_addr = 0xffffffff40000000 := rfl
  rw [hb] at h
  unfold word_outside_page
  rcases ha with rfl | rfl
  · omega
  · omega

set_option maxRecDepth 1000000 in
theorem demoEntries_victim (tva : Nat) (sp : State)
    (hp : __pick_page demoEnv (demoState faultMem) = .ok tva sp) :
    demoEntries (demoEnv.pte_of_va (demoState faultMem).mem tva) ∧
    read64 (demoState faultMem).mem (demoEnv.pte_of_va (demoState faultMem).mem tva)
      &&& PTE_V ≠ 0 ∧
    sep_from demoEntries (demoEnv.__va (victim_frame demoEnv (demoState faultMem) tva)) ∧
    word_apart demoEntries (demoEnv.pte_of_va (demoState faultMem).mem tva) := by
  rw [demo_fault_picks] at hp
  injection hp with hp _
  subst hp
  refine ⟨Or.inl (by decide), by decide, ?_, ?_⟩
  · intro a ha
    have hv : demoEnv.__va (victim_frame demoEnv (demoState faultMem) 0x1000)
        = 0xffffffff00004000 := by decide
    rw [hv]
    unfold word_outside_page
    rcases ha with rfl | rfl
    · decide
    · decide
  · intro a ha
    have hv : demoEnv.pte_of_va (demoState faultMem).mem 0x1000 = 0xffffffff00003008 := by
      decide
    rw [hv]
    rcases ha with rfl | rfl
    · exact Or.inl rfl
    · exact Or.inr (Or.inr (by decide))

set_option maxRecDepth 1000000 in
/-- Witness of C13: the two leaf entries of the concrete fault state. -/
theorem C13_backing_pointers_preserved_witness :
    (∀ swap_va, swap_va % RISCV_PAGE_SIZE = 0 →
      backing_inv demoEnv demoEntries
        (paging_evict_and_free_one demoEnv (demoState faultMem) swap_va).final) ∧
    (∀ addr, demoEnv.__paging_va (backing_pa demoEnv (demoState faultMem) addr)
        % RISCV_PAGE_SIZE = 0 →
      word_apart demoEntries (demoEnv.pte_of_va (demoState faultMem).mem addr) →
      backing_inv demoEnv demoEntries
        (paging_handle_page_fault demoEnv (demoState faultMem) addr).final) :=
  C13_backing_pointers_preserved demoEnv demoEntries (demoState faultMem)
    demoEnv_paging_pa_lt demoEnv_translation demoEntries_inv
    (fun d h1 _ => demoEntries_outside_backing d h1)
    (fun tva sp hp _ => ⟨(demoEntries_victim tva sp hp).2.2.1,
      (demoEntries_victim tva sp hp).2.2.2⟩)

set_option maxRecDepth 1000000 in
/-- Counterexample to C13 as stated: in the state whose victim frame is the page of the
level-1 table, every entry of the three tables satisfies the predicate before the fault at
`0x2000`; the handler returns normally, and afterwards the level-1 entry 0 holds `0x2222`,
taken from the backing page: it is invalid, stores the nonzero pointer `0x8000`, and that
pointer is outside the backing store. -/
theorem C13_counterexample_table_overwritten :
    (∀ i, i < 512 →
      backing_ptr_ok demoEnv aliasState (read64 aliasState.mem (0xffffffff00001000 + 8 * i)) ∧
      backing_ptr_ok demoEnv aliasState (read64 aliasState.mem (0xffffffff00002000 + 8 * i)) ∧
      backing_ptr_ok demoEnv aliasState (read64 aliasState.mem (0xffffffff00003000 + 8 * i))) ∧
    (paging_handle_page_fault demoEnv aliasState 0x2000).returned = true ∧
    read64 (paging_handle_page_fault demoEnv aliasState 0x2000).final.mem 0xffffffff00003000
      = 0x2222 ∧
    ¬ backing_ptr_ok demoEnv (paging_handle_page_fault demoEnv aliasState 0x2000).final
        (read64 (paging_handle_page_fault demoEnv aliasState 0x2000).final.mem
          0xffffffff00003000) := by
  refine ⟨by decide!, by decide, by decide, by decide⟩

/-! ## At most one mapping of a frame -/

theorem in_epm_globals (E : Env) (s s1 : State) (pa : Nat) (hg : same_globals s s1) :
    in_epm E s1 pa ↔ in_epm E s pa := by
  unfold in_epm
  rw [hg.2.2.1, hg.2.2.2]

theorem no_alias_of_reads (E : Env) (T : Nat → Prop) (s s1 : State) (hg : same_globals s s1)
    (hinv : no_alias E T s)
    (hread : ∀ a, T a → read64 s1.mem a &&& PTE_V ≠ 0 → read64 s1.mem a = read64 s.mem a) :
    no_alias E T s1 := by
  intro a b ha hb hab hva hvb hsame hepm
  have ea := hread a ha hva
  have eb := hread b hb hvb
  rw [ea] at hva hsame hepm
  rw [eb] at hvb hsame
  exact hinv a b ha hb hab hva hvb hsame ((in_epm_globals E s s1 _ hg).mp hepm)

theorem victim_frame_eq (E : Env) (s : State) (tva : Nat) :
    victim_frame E s tva = stored_pa (read64 s.mem (E.pte_of_va s.mem tva)) := rfl

theorem backing_pa_eq (E : Env) (s : State) (addr : Nat) :
    backing_pa E s addr = stored_pa (read64 s.mem (E.pte_of_va s.mem addr)) := rfl

theorem valid_ne_zero_of_one (e : Nat) (h : e &&& PTE_V = 1) : e &&& PTE_V ≠ 0 := by
  rw [h]
  decide

/-- C14 (amended with the separation of the entries and the validity of the victim's
entry): let `T` be a set of leaf entry addresses that lie outside the backing page and the
victim frame whose contents the fault exchanges, none of which partly overlaps the entry of
the faulting address or the entry of the victim, and suppose the entry that `pte_of_va`
yields for any victim that can be picked belongs to `T` and is valid. If no two distinct
valid entries of `T` map the same frame of the enclave memory, then the same holds in the
state in which `paging_handle_page_fault` ends, whether it returns or takes a fatal path. -/
theorem C14_single_mapping_preserved (E : Env) (T : Nat → Prop) (s : State) (addr : Nat)
    (hinv : no_alias E T s)
    (hentry : word_apart T (E.pte_of_va s.mem addr))
    (hback : sep_from T (E.__paging_va (backing_pa E s addr)))
    (hvict : ∀ tva sp, __pick_page E s = .ok tva sp → tva ≠ 0 →
      T (E.pte_of_va s.mem tva) ∧ read64 s.mem (E.pte_of_va s.mem tva) &&& PTE_V ≠ 0 ∧
      sep_from T (E.__va (victim_frame E s tva)) ∧ word_apart T (E.pte_of_va s.mem tva)) :
    no_alias E T (paging_handle_page_fault E s addr).final := by
  rcases handler_cases E s addr with
    ⟨hm, hg, _⟩ | ⟨tva, sp, hp, ht, hg, _, _, _, _, _, hepm1, hepm2, hc⟩
  · exact no_alias_of_reads E T s _ hg hinv (fun a _ _ => by rw [hm])
  · obtain ⟨hTt, hvt, hv1, hv2⟩ := hvict tva sp hp ht
    -- reads after the eviction
    have hev : ∀ a, T a →
        read64 (evict_mem E s.mem (E.__paging_va (backing_pa E s addr))
          (E.__va (victim_frame E s tva)) (E.__paging_va (backing_pa E s addr))
          (E.pte_of_va s.mem tva)) a &&& PTE_V ≠ 0 →
        a ≠ E.pte_of_va s.mem tva ∧
        read64 (evict_mem E s.mem (E.__paging_va (backing_pa E s addr))
          (E.__va (victim_frame E s tva)) (E.__paging_va (backing_pa E s addr))
          (E.pte_of_va s.mem tva)) a = read64 s.mem a := by
      intro a ha hva
      rcases hv2 a ha with rfl | hd
      · rw [read64_evict_mem_target, pte_create_invalid_valid] at hva
        exact absurd rfl hva
      · refine ⟨?_, read64_evict_mem_other E s.mem _ _ _ _ a (hback a ha) (hv1 a ha) hd⟩
        intro h
        rw [h] at hd
        omega
    rcases hc with ⟨_, he⟩ | ⟨_, he⟩
    · rw [he]
      exact no_alias_of_reads E T s _ (same_globals_with_mem s sp _ hg) hinv
        (fun a ha hva => (hev a ha hva).2)
    · rw [he]
      have hg' := same_globals_with_mem s sp (fault_mem E s.mem
        (E.__paging_va (backing_pa E s addr)) (E.__va (victim_frame E s tva))
        (E.pte_of_va s.mem tva) (E.pte_of_va s.mem addr) (victim_frame E s tva)) hg
      -- the frame mapped by the rewritten entry of the faulting address
      have hnew : stored_pa (read64 (fault_mem E s.mem
          (E.__paging_va (backing_pa E s addr)) (E.__va (victim_frame E s tva))
          (E.pte_of_va s.mem tva) (E.pte_of_va s.mem addr) (victim_frame E s tva))
          (E.pte_of_va s.mem addr)) = stored_pa (read64 s.mem (E.pte_of_va s.mem tva)) := by
        unfold fault_mem
        rw [read64_write64_same, Nat.mod_eq_of_lt (pte_create_lt _ _), victim_frame_eq,
          stored_pa_create _ _ (ppn_lt _ (stored_pa_lt _))]
        exact stored_pa_aligned _
      -- an entry other than the faulting one, valid after the fault
      have hother : ∀ a, T a → a ≠ E.pte_of_va s.mem addr →
          read64 (fault_mem E s.mem
            (E.__paging_va (backing_pa E s addr)) (E.__va (victim_frame E s tva))
            (E.pte_of_va s.mem tva) (E.pte_of_va s.mem addr) (victim_frame E s tva)) a
            &&& PTE_V ≠ 0 →
          a ≠ E.pte_of_va s.mem tva ∧
          read64 (fault_mem E s.mem
            (E.__paging_va (backing_pa E s addr)) (E.__va (victim_frame E s tva))
            (E.pte_of_va s.mem tva) (E.pte_of_va s.mem addr) (victim_frame E s tva)) a
            = read64 s.mem a := by
        intro a ha hne hva
        have hd : a + 8 ≤ E.pte_of_va s.mem addr ∨ E.pte_of_va s.mem addr + 8 ≤ a := by
          rcases hentry a ha with h | h
          · exact absurd h hne
          · exact h
        have hr : read64 (fault_mem E s.mem
            (E.__paging_va (backing_pa E s addr)) (E.__va (victim_frame E s tva))
            (E.pte_of_va s.mem tva) (E.pte_of_va s.mem addr) (victim_frame E s tva)) a
            = read64 (evict_mem E s.mem (E.__paging_va (backing_pa E s addr))
                (E.__va (victim_frame E s tva)) (E.__paging_va (backing_pa E s addr))
                (E.pte_of_va s.mem tva)) a := by
          unfold fault_mem
          rw [read64_write64_other _ _ _ _ hd]
        rw [hr] at hva ⊢
        exact hev a ha hva
      have hF : in_epm E s (stored_pa (read64 s.mem (E.pte_of_va s.mem tva))) :=
        ⟨hepm1, hepm2⟩
      have key : ∀ s1 : State, s1.mem = fault_mem E s.mem
          (E.__paging_va (backing_pa E s addr)) (E.__va (victim_frame E s tva))
          (E.pte_of_va s.mem tva) (E.pte_of_va s.mem addr) (victim_frame E s tva) →
          same_globals s s1 → no_alias E T s1 := by
        intro s1 hs1 hg1 a b ha hb hab hva hvb hsame hepm
        rw [hs1] at hva hvb hsame hepm
        by_cases hae : a = E.pte_of_va s.mem addr
        · have hbe : b ≠ E.pte_of_va s.mem addr := fun h => hab (hae.trans h.symm)
          obtain ⟨hbt, hrb⟩ := hother b hb hbe hvb
          rw [hae, hnew, hrb] at hsame
          rw [hrb] at hvb
          exact hinv _ b hTt hb (fun h => hbt h.symm) hvt hvb hsame hF
        · obtain ⟨hat, hra⟩ := hother a ha hae hva
          by_cases hbe : b = E.pte_of_va s.mem addr
          · rw [hbe, hnew, hra] at hsame
            rw [hra] at hva
            exact hinv a _ ha hTt hat hva hvt hsame
              (by rw [hsame]; exact hF)
          · obtain ⟨_, hrb⟩ := hother b hb hbe hvb
            rw [hra] at hva hsame hepm
            rw [hrb] at hvb hsame
            exact hinv a b ha hb hab hva hvb hsame ((in_epm_globals E s _ _ hg1).mp hepm)
      exact key _ rfl hg'

set_option maxRecDepth 1000000 in
theorem demoEntries_no_alias : no_alias demoEnv demoEntries (demoState faultMem) := by
  intro a b ha hb hab hva hvb _ _
  rcases ha with rfl | rfl
  · rcases hb with rfl | rfl
    · exact absurd rfl hab
    · exact absurd hvb (by decide)
  · exact absurd hva (by decide)

set_option maxRecDepth 1000000 in
theorem demoEntries_apart_entry :
    word_apart demoEntries (demoEnv.pte_of_va (demoState faultMem).mem 0x2000) := by
  have hv : demoEnv.pte_of_va (demoState faultMem).mem 0x2000 = 0xffffffff00003010 := by
    decide
  rw [hv]
  intro a ha
  rcases ha with rfl | rfl
  · exact Or.inr (Or.inl (by decide))
  · exact Or.inl rfl

set_option maxRecDepth 1000000 in
/-- Witness of C14: the fault at `0x2000` of the concrete fault state, with its two leaf
entries. -/
theorem C14_single_mapping_preserved_witness :
    no_alias demoEnv demoEntries
      (paging_handle_page_fault demoEnv (demoState faultMem) 0x2000).final :=
  C14_single_mapping_preserved demoEnv demoEntries (demoState faultMem) 0x2000
    demoEntries_no_alias demoEntries_apart_entry
    (demoEntries_outside_backing _ (by decide))
    (fun tva sp hp _ => demoEntries_victim tva sp hp)

set_option maxRecDepth 1000000 in
/-- Counterexample to C14 as stated: in the state whose victim frame is the page of the
level-1 table and whose backing page holds, as fourth word, a valid entry for that frame, the
only valid leaf entry before the fault at `0x2000` is the level-1 entry 1 (no entry of the
root or of the level-2 table has R, W or X set); the handler returns normally, and afterwards
the level-1 entries 2 and 3 are both valid and map the same frame `0x80003000`, which lies in
the enclave memory. -/
theorem C14_counterexample_table_overwritten :
    (∀ i, i < 512 →
      read64 aliasState2.mem (0xffffffff00001000 + 8 * i) &&& (PTE_R ||| PTE_W ||| PTE_X) = 0 ∧
      read64 aliasState2.mem (0xffffffff00002000 + 8 * i) &&& (PTE_R ||| PTE_W ||| PTE_X) = 0 ∧
      (i ≠ 1 → read64 aliasState2.mem (0xffffffff00003000 + 8 * i) &&& PTE_V = 0)) ∧
    (paging_handle_page_fault demoEnv aliasState2 0x2000).returned = true ∧
    read64 (paging_handle_page_fault demoEnv aliasState2 0x2000).final.mem 0xffffffff00003010
      &&& PTE_V = 1 ∧
    read64 (paging_handle_page_fault demoEnv aliasState2 0x2000).final.mem 0xffffffff00003018
      &&& PTE_V = 1 ∧
    stored_pa (read64 (paging_handle_page_fault demoEnv aliasState2 0x2000).final.mem
      0xffffffff00003010) = 0x80003000 ∧
    stored_pa (read64 (paging_handle_page_fault demoEnv aliasState2 0x2000).final.mem
      0xffffffff00003018) = 0x80003000 ∧
    demoEnv.EYRIE_LOAD_START ≤ demoEnv.__va 0x80003000 ∧
    demoEnv.__va 0x80003000 < (aliasState2.freemem_va_start + aliasState2.freemem_size) % WORD := by
  refine ⟨by decide!, by decide, by decide, by decide, by decide, by decide, by decide,
    by decide⟩

/-! ## Content of a page across eviction and fault -/

theorem handler_ok_mem (E : Env) (s s1 sp : State) (addr tva : Nat)
    (h : paging_handle_page_fault E s addr = .ok () s1)
    (hp : __pick_page E s = .ok tva sp) :
    E.__paging_va (backing_pa E s addr) ≠ 0 ∧
    s1.mem = fault_mem E s.mem (E.__paging_va (backing_pa E s addr))
      (E.__va (victim_frame E s tva)) (E.pte_of_va s.mem tva) (E.pte_of_va s.mem addr)
      (victim_frame E s tva) := by
  rcases handler_cases E s addr with
    ⟨_, _, hr⟩ | ⟨tva1, sp1, hp1, _, _, _, hb, _, _, _, _, _, hc⟩
  · rw [h] at hr
    cases hr
  · rw [hp] at hp1
    injection hp1 with e1 e2
    subst e1
    rcases hc with ⟨_, he⟩ | ⟨_, he⟩
    · rw [h] at he
      cases he
    · rw [h] at he
      injection he with _ he
      rw [he]
      exact ⟨hb, rfl⟩

theorem fault_mem_entry (E : Env) (m : Mem) (back epm t e frame : Nat) :
    read64 (fault_mem E m back epm t e frame) e =
      pte_create (ppn frame) (read64 (evict_mem E m back epm back t) e &&& PTE_FLAG_MASK) := by
  unfold fault_mem
  rw [read64_write64_same, Nat.mod_eq_of_lt (pte_create_lt _ _)]

theorem fault_mem_victim_entry (E : Env) (m : Mem) (back epm t e frame : Nat)
    (hte : t + 8 ≤ e ∨ e + 8 ≤ t) :
    read64 (fault_mem E m back epm t e frame) t =
      pte_create_invalid (ppn (E.__paging_pa back))
        (read64 (swap_mem m back epm back) t &&& PTE_FLAG_MASK) := by
  unfold fault_mem
  rw [read64_write64_other _ _ _ _ hte, read64_evict_mem_target]

theorem fault_mem_back_page (E : Env) (m : Mem) (back epm t e frame k : Nat)
    (hk : k < RISCV_PAGE_SIZE)
    (hd : back + RISCV_PAGE_SIZE ≤ epm ∨ epm + RISCV_PAGE_SIZE ≤ back)
    (ht : word_outside_page t back) (he : word_outside_page e back) :
    fault_mem E m back epm t e frame (back + k) = m (epm + k) := by
  unfold word_outside_page at ht he
  unfold fault_mem evict_mem
  rw [write64_byte_out _ _ _ _ (by omega), write64_byte_out _ _ _ _ (by omega),
    swap_mem_dest _ _ _ _ _ hk hd]

theorem fault_mem_frame_page (E : Env) (m : Mem) (back epm t e frame k : Nat)
    (hk : k < RISCV_PAGE_SIZE) (hb : back ≠ 0)
    (ht : word_outside_page t epm) (he : word_outside_page e epm) :
    fault_mem E m back epm t e frame (epm + k) = m (back + k) := by
  unfold word_outside_page at ht he
  unfold fault_mem evict_mem
  rw [write64_byte_out _ _ _ _ (by omega), write64_byte_out _ _ _ _ (by omega),
    swap_mem_epm _ _ _ _ _ hk hb]

/-- C11 (amended with the separation of the entries from the swapped pages): a page `P` is
evicted as the victim of a successful fault on `a1`, its content going to the backing page
`S` of `a1`; later, in a state in which `S` holds the same bytes and the entry of `P` the
same word as right after that fault, a fault on `P` is handled successfully, evicting `v2`.
If, at the first fault, `S` and the frame of `P` do not overlap and the entries of `P` and of
`a1` are two words outside `S`, if `__paging_pa` undoes `__paging_va` on the backing pointer
of `a1`, and if, at the second fault, the entries of `P` and of `v2` lie outside the frame
of `v2`, then the frame that the entry of `P` maps afterwards holds, byte for byte, the
content the frame of `P` had before the first fault. -/
theorem C11_round_trip_content (E : Env) (s0 s1 s2 s3 sp1 sp2 : State) (a1 P v2 : Nat)
    (h1 : paging_handle_page_fault E s0 a1 = .ok () s1)
    (hp1 : __pick_page E s0 = .ok P sp1)
    (hrt : E.__paging_pa (E.__paging_va (backing_pa E s0 a1)) = backing_pa E s0 a1)
    (hd1 : E.__paging_va (backing_pa E s0 a1) + RISCV_PAGE_SIZE ≤ E.__va (victim_frame E s0 P) ∨
      E.__va (victim_frame E s0 P) + RISCV_PAGE_SIZE ≤ E.__paging_va (backing_pa E s0 a1))
    (ht1 : word_outside_page (E.pte_of_va s0.mem P) (E.__paging_va (backing_pa E s0 a1)))
    (he1 : word_outside_page (E.pte_of_va s0.mem a1) (E.__paging_va (backing_pa E s0 a1)))
    (hte : E.pte_of_va s0.mem P + 8 ≤ E.pte_of_va s0.mem a1 ∨
      E.pte_of_va s0.mem a1 + 8 ≤ E.pte_of_va s0.mem P)
    (hS : ∀ k, k < RISCV_PAGE_SIZE →
      s2.mem (E.__paging_va (backing_pa E s0 a1) + k)
        = s1.mem (E.__paging_va (backing_pa E s0 a1) + k))
    (hloc : E.pte_of_va s2.mem P = E.pte_of_va s0.mem P)
    (hpte : read64 s2.mem (E.pte_of_va s0.mem P) = read64 s1.mem (E.pte_of_va s0.mem P))
    (h2 : paging_handle_page_fault E s2 P = .ok () s3)
    (hp2 : __pick_page E s2 = .ok v2 sp2)
    (ht2 : word_outside_page (E.pte_of_va s2.mem v2) (E.__va (victim_frame E s2 v2)))
    (he2 : word_outside_page (E.pte_of_va s0.mem P) (E.__va (victim_frame E s2 v2))) :
    ∀ k, k < RISCV_PAGE_SIZE →
      s3.mem (E.__va (stored_pa (read64 s3.mem (E.pte_of_va s2.mem P))) + k)
        = s0.mem (E.__va (victim_frame E s0 P) + k) := by
  obtain ⟨_, hm1⟩ := handler_ok_mem E s0 s1 sp1 a1 P h1 hp1
  obtain ⟨hb2, hm3⟩ := handler_ok_mem E s2 s3 sp2 P v2 h2 hp2
  -- the backing pointer of `P` at the second fault is the backing pointer of `a1`
  have hbp : backing_pa E s2 P = backing_pa E s0 a1 := by
    rw [backing_pa_eq E s2 P, hloc, hpte, hm1, fault_mem_victim_entry _ _ _ _ _ _ _ hte, hrt,
      stored_pa_create_invalid _ _ (ppn_lt _ (by rw [backing_pa_eq]; exact stored_pa_lt _)),
      backing_pa_eq E s0 a1]
    exact stored_pa_aligned _
  rw [hbp, hloc] at hm3
  rw [hbp] at hb2
  -- the frame mapped by the entry of `P` after the second fault
  have hfr : stored_pa (read64 s3.mem (E.pte_of_va s2.mem P)) = victim_frame E s2 v2 := by
    rw [hloc, hm3, fault_mem_entry, victim_frame_eq,
      stored_pa_create _ _ (ppn_lt _ (stored_pa_lt _))]
    exact stored_pa_aligned _
  intro k hk
  rw [hfr, hm3, fault_mem_frame_page _ _ _ _ _ _ _ _ hk hb2 ht2 he2, hS k hk, hm1,
    fault_mem_back_page _ _ _ _ _ _ _ _ hk hd1 ht1 he1]

set_option maxRecDepth 1000000 in
theorem second_fault_returns :
    paging_handle_page_fault demoEnv afterFirstFault 0x1000
      = .ok () (paging_handle_page_fault demoEnv afterFirstFault 0x1000).final :=
  ok_of_returned_unit _ (by decide)

set_option maxRecDepth 1000000 in
theorem second_fault_picks :
    __pick_page demoEnv afterFirstFault
      = .ok 0x2000 (__pick_page demoEnv afterFirstFault).final :=
  ok_of_returned_nat _ _ (by decide) (by decide)

set_option maxRecDepth 1000000 in
/-- Witness of C11: in the concrete fault state the fault at `0x2000` evicts the page at
`0x1000`, and the fault at `0x1000` that follows brings it back (shown at byte 8). -/
theorem C11_round_trip_content_witness :
    (paging_handle_page_fault demoEnv afterFirstFault 0x1000).final.mem
      (demoEnv.__va (stored_pa (read64
        (paging_handle_page_fault demoEnv afterFirstFault 0x1000).final.mem
        (demoEnv.pte_of_va afterFirstFault.mem 0x1000))) + 8)
      = (demoState faultMem).mem
          (demoEnv.__va (victim_frame demoEnv (demoState faultMem) 0x1000) + 8) :=
  C11_round_trip_content demoEnv (demoState faultMem) afterFirstFault afterFirstFault
    (paging_handle_page_fault demoEnv afterFirstFault 0x1000).final
    (__pick_page demoEnv (demoState faultMem)).final
    (__pick_page demoEnv afterFirstFault).final 0x2000 0x1000 0x2000
    demo_fault_returns demo_fault_picks (by decide) (by decide)
    (by unfold word_outside_page; decide) (by unfold word_outside_page; decide) (by decide)
    (fun _ _ => rfl) (by decide) rfl second_fault_returns second_fault_picks
    (by unfold word_outside_page; decide) (by unfold word_outside_page; decide)
    8 (by decide)

set_option maxRecDepth 1000000 in
/-- Counterexample to C11 as stated: the page at `0x1000`, resident in the frame at
`0x80004000`, is evicted by the successful fault at `0x3000`; the successful fault at
`0x1000` that follows at once evicts the page at `0x2000`, whose frame is the page of the
level-1 table. The entry of `0x1000` then maps the frame at `0x80003000`, and byte 8 of that
frame is 1, written by the handler into the entry, whereas byte 8 of the content of the page
before its eviction was 0. -/
theorem C11_counterexample_entry_in_frame :
    (paging_handle_page_fault demoEnv (demoState roundTripMem) 0x3000).returned = true ∧
    (__pick_page demoEnv (demoState roundTripMem)).value = 0x1000 ∧
    demoEnv.pte_of_va (demoState roundTripMem).mem 0x1000 = 0xffffffff00003008 ∧
    demoEnv.__va (stored_pa (read64 (demoState roundTripMem).mem 0xffffffff00003008))
      = 0xffffffff00004000 ∧
    (paging_handle_page_fault demoEnv afterRoundTripFault 0x1000).returned = true ∧
    demoEnv.pte_of_va afterRoundTripFault.mem 0x1000 = 0xffffffff00003008 ∧
    demoEnv.__va (stored_pa (read64
      (paging_handle_page_fault demoEnv afterRoundTripFault 0x1000).final.mem
      0xffffffff00003008)) = 0xffffffff00003000 ∧
    (paging_handle_page_fault demoEnv afterRoundTripFault 0x1000).final.mem
      (0xffffffff00003000 + 8) = 1 ∧
    (demoState roundTripMem).mem (0xffffffff00004000 + 8) = 0 := by
  decide

end Paging
